import Mathlib

/-!
Verification of the idli-v2 software toolchain: a shallow embedding of the
instruction-set tables (scripts/isa.py), the encoder (Instruction.encode),
the decoder (scripts/objdump.py, decode) and the behavioural simulator
(scripts/sim.py, Sim), together with theorems settling the specification
claims about them.

Python integers are modelled as Int (arbitrary precision, two's-complement
bitwise operators); Python raising an exception is modelled by returning
none from an Option-valued function.
-/

namespace Idli

/-! ## Basic helpers for Python integer idioms -/

/-- Python "v & 0xffff" on an arbitrary-precision integer: the low 16 bits
of the two's-complement representation, always in [0, 65536). -/
def mask16 (v : Int) : Int := v.emod 65536

/-- Python "v & 1": the low bit of the two's-complement representation. -/
def mask1 (v : Int) : Int := v.emod 2

/-- Python "v >> n" (arithmetic shift = floor division). -/
def pyShr (v : Int) (n : Nat) : Int := v.fdiv (2 ^ n)

/-- Python "(v >> p) & 1": two's-complement bit p of an arbitrary integer. -/
def pyBit (v : Int) (p : Nat) : Int := (v.fdiv (2 ^ p)).emod 2

/-- Structural worker for bit_length (the fuel dominates the value). -/
def bit_lengthGo : Nat → Nat → Nat
  | 0, _ => 0
  | fuel + 1, n => if n = 0 then 0 else bit_lengthGo fuel (n / 2) + 1

/-- Python int.bit_length: the number of binary digits, zero for zero. -/
def bit_length (n : Nat) : Nat := bit_lengthGo n n

/-- A width large enough to hold the two's-complement representation of
both arguments, sign bit included. -/
def pyWidth (a b : Int) : Nat := bit_length (a.natAbs + b.natAbs + 2)

/-- Python "a & b" on arbitrary-precision integers: combine the low
pyWidth bits of the two's-complement representations with the natural
and; the result is negative exactly when both arguments are. -/
def pyAnd (a b : Int) : Int :=
  let n := pyWidth a b
  let r : Int := Nat.land (a.emod (2 ^ n)).toNat (b.emod (2 ^ n)).toNat
  if a < 0 ∧ b < 0 then r - 2 ^ n else r

/-- Python "a | b": negative exactly when either argument is. -/
def pyOr (a b : Int) : Int :=
  let n := pyWidth a b
  let r : Int := Nat.lor (a.emod (2 ^ n)).toNat (b.emod (2 ^ n)).toNat
  if a < 0 ∨ b < 0 then r - 2 ^ n else r

/-- Python "a ^ b": negative exactly when exactly one argument is. -/
def pyXor (a b : Int) : Int :=
  let n := pyWidth a b
  let r : Int := Nat.xor (a.emod (2 ^ n)).toNat (b.emod (2 ^ n)).toNat
  if (a < 0) ≠ (b < 0) then r - 2 ^ n else r

/-! ## ISA tables (scripts/isa.py) -/

/-- REGS entries needed by the embedding: zr = r0, lr = r14, sp = r15. -/
def REG_zr : Int := 0

def REG_lr : Int := 14

def REG_sp : Int := 15

/-- The ENCODINGS table of scripts/isa.py, verbatim (underscores included;
the source strips them with str.replace). Zero and one bits are the opcode,
question marks are dont-cares and letters are operand bit-fields. -/
def ENCODINGS : List (String × String) := [
  ("add",   "0000_aaaa_bbbb_cccc"),
  ("sub",   "0001_aaaa_bbbb_cccc"),
  ("and",   "0010_aaaa_bbbb_cccc"),
  ("andn",  "0011_aaaa_bbbb_cccc"),
  ("or",    "0100_aaaa_bbbb_cccc"),
  ("xor",   "0101_aaaa_bbbb_cccc"),
  ("ld",    "0110_aaaa_bbbb_cccc"),
  ("st",    "0111_aaaa_bbbb_cccc"),
  ("ldm",   "1000_rrrr_ssss_bbbb"),
  ("stm",   "1001_rrrr_ssss_bbbb"),
  ("ld+",   "1010_aaaa_bbbb_0000"),
  ("st+",   "1010_aaaa_bbbb_0001"),
  ("+ld",   "1010_aaaa_bbbb_0010"),
  ("+st",   "1010_aaaa_bbbb_0011"),
  ("ld-",   "1010_aaaa_bbbb_0100"),
  ("st-",   "1010_aaaa_bbbb_0101"),
  ("-ld",   "1010_aaaa_bbbb_0110"),
  ("-st",   "1010_aaaa_bbbb_0111"),
  ("inc",   "1010_aaaa_bbbb_1000"),
  ("dec",   "1010_aaaa_bbbb_1001"),
  ("srl",   "1010_aaaa_bbbb_1010"),
  ("sra",   "1010_aaaa_bbbb_1011"),
  ("ror",   "1010_aaaa_bbbb_1100"),
  ("rol",   "1010_aaaa_bbbb_1101"),
  ("not",   "1010_aaaa_bbbb_1110"),
  ("eq",    "1011_0000_bbbb_cccc"),
  ("ne",    "1011_0001_bbbb_cccc"),
  ("lt",    "1011_0010_bbbb_cccc"),
  ("ltu",   "1011_0011_bbbb_cccc"),
  ("ge",    "1011_0100_bbbb_cccc"),
  ("geu",   "1011_0101_bbbb_cccc"),
  ("any",   "1011_0110_bbbb_cccc"),
  ("inp",   "1011_0111_??nn_0000"),
  ("eqx",   "1011_1000_bbbb_cccc"),
  ("nex",   "1011_1001_bbbb_cccc"),
  ("ltx",   "1011_1010_bbbb_cccc"),
  ("ltux",  "1011_1011_bbbb_cccc"),
  ("gex",   "1011_1100_bbbb_cccc"),
  ("geux",  "1011_1101_bbbb_cccc"),
  ("anyx",  "1011_1110_bbbb_cccc"),
  ("inpx",  "1011_1111_??nn_0000"),
  ("addpc", "1100_aaaa_???0_cccc"),
  ("b",     "1100_??00_???1_cccc"),
  ("j",     "1100_??01_???1_cccc"),
  ("bl",    "1100_??10_???1_cccc"),
  ("jl",    "1100_??11_???1_cccc"),
  ("in",    "1101_???0_00nn_aaaa"),
  ("out",   "1101_???0_01nn_cccc"),
  ("outn",  "1101_???0_10nn_cccc"),
  ("outp",  "1101_???0_11nn_0000"),
  ("urx",   "1101_???1_??00_aaaa"),
  ("utx",   "1101_???1_??01_cccc"),
  ("getp",  "1101_???1_??10_aaaa"),
  ("putp",  "1101_???1_??11_cccc"),
  ("cex",   "1110_???0_mmmm_mmmm"),
  ("carry", "1110_???1_??00_jjjj"),
  ("andp",  "1110_???1_??01_jjjj"),
  ("orp",   "1110_???1_??10_jjjj")]

/-- v.replace(String.mk [c], "") applied to the pattern: the source strips
the readability underscores from every encoding string. -/
def encStr (p : String) : List Char := p.toList.filter (fun c => c ≠ '_')

/-- int("".join(x if x in "01" else "0" for x in v), 2), via a left fold:
the value of a most-significant-bit-first binary character string, where a
character contributes 1 exactly when it is the character one. -/
def bitsToNat (l : List Char) : Nat :=
  l.foldl (fun acc c => 2 * acc + (if c = '1' then 1 else 0)) 0

/-- OPCODES[mnem]: opcode bits kept, everything else mapped to zero. -/
def opcodeVal (p : String) : Nat :=
  bitsToNat ((encStr p).map (fun c => if c = '0' ∨ c = '1' then c else '0'))

/-- OPCODE_MASKS[mnem]: one where the pattern fixes a bit, zero elsewhere. -/
def opcodeMask (p : String) : Nat :=
  bitsToNat ((encStr p).map (fun c => if c = '0' ∨ c = '1' then '1' else '0'))

/-! ## Instructions (scripts/isa.py, class Instruction) -/

/-- A structured instruction: mnemonic, ordered map of named operands
(register fields are small naturals, the imm entry may be negative),
optional predicate tag ".t"/".f" and the optional stored CEX mask. -/
structure Instruction where
  mnem : String
  ops : List (String × Int)
  cond : Option String := none
  cex_mask : Option Int := none
deriving DecidableEq, Repr

namespace Instruction

/-- self.ops[k] / self.ops.get(k). -/
def getOp (i : Instruction) (k : String) : Option Int := i.ops.lookup k

/-- "imm" in self.ops. -/
def hasImm (i : Instruction) : Bool := (i.getOp "imm").isSome

/-- Number of 16b chunks the instruction occupies: 2 iff an immediate is
present. -/
def size (i : Instruction) : Nat := 1 + (if i.hasImm then 1 else 0)

/-- The compare-and-execute mnemonics (CMPX in Instruction.num_cond). -/
def CMPX : List String := ["eqx", "nex", "ltx", "ltux", "gex", "geux", "anyx", "inpx"]

/-- How many following instructions are predicated after this one: 1 for the
compare-and-execute forms, otherwise the m operand (defaulting to 0). -/
def num_cond (i : Instruction) : Int :=
  if i.mnem ∈ CMPX then 1 else (i.getOp "m").getD 0

end Instruction

/-! ## Encoder (scripts/isa.py, Instruction.encode) -/

/-- Structural worker for natBinStr; the fuel dominates the value so it
is never exhausted before the value drops below two. -/
def natBinStrGo : Nat → Nat → List Char
  | 0, v => [if v = 1 then '1' else '0']
  | fuel + 1, v =>
    if v < 2 then [if v = 1 then '1' else '0']
    else natBinStrGo fuel (v / 2) ++ [if v % 2 = 1 then '1' else '0']

/-- The binary character string of a natural number, most significant bit
first ("0" for zero), as produced by Python bin()/format. -/
def natBinStr (v : Nat) : List Char := natBinStrGo v v

/-- f-string binary formatting with zero padding to a minimum width:
format(v, "0" ++ toString space ++ "b"). -/
def padBin (v : Nat) (space : Nat) : List Char :=
  List.replicate (space - (natBinStr v).length) '0' ++ natBinStr v

/-- The m operand is encoded from the follower list: a terminator one bit
at position v, below it one bit per follower whose predicate tag is ".t".
Python raises when there are fewer followers than requested or when a
follower has no tag; a negative v would raise in 1 << v. -/
def encodeM (v : Int) (followers : List Instruction) : Option Int := do
  if (followers.length : Int) < v then none
  else if v < 0 then none
  else
    let k := v.toNat
    let bits ← (List.range k).foldlM (fun acc i => do
      let f ← followers.get? i
      let c ← f.cond
      pure (acc + (if c = ".t" then (1 : Int) else 0) * 2 ^ i)) 0
    pure (2 ^ k + bits)

/-- One substitution step of the encoder loop body: every character of the
pattern equal to the operand letter is replaced by the next character of
the operand's binary string (next(v_enc) if x == k else x). The length
check in the source guarantees the digit iterator is never exhausted. -/
def substField (k : Char) : List Char → List Char → List Char
  | _, [] => []
  | ds, c :: cs =>
    if c = k then ds.headD '0' :: substField k ds.tail cs
    else c :: substField k ds cs

/-- The encoder loop over the operand map: immediates are skipped, the m
operand is first converted using the followers, the value is rendered as a
zero-padded binary string whose length must match the number of pattern
positions carrying the operand letter, and those positions are replaced in
order. A negative field value either fails the length check or later makes
int(bits, 2) raise, so it always fails. -/
def encodeFields (followers : List Instruction) :
    List Char → List (String × Int) → Option (List Char)
  | bits, [] => some bits
  | bits, (k, v) :: rest => do
    if k = "imm" then encodeFields followers bits rest
    else
      let v ← if k = "m" then encodeM v followers else some v
      if v < 0 then none
      else
        let kc := k.toList.headD ' '
        let space := bits.count kc
        let venc := padBin v.toNat space
        if venc.length ≠ space then none
        else encodeFields followers (substField kc venc bits) rest

/-- struct.pack(">H", w) for w already below 2^16: two big-endian bytes. -/
def pack_u16 (w : Nat) : List Nat := [w / 256, w % 256]

/-- struct.pack(">h", v): raises unless -32768 <= v <= 32767, otherwise the
big-endian two's-complement 16-bit representation. -/
def pack_i16 (v : Int) : Option (List Nat) :=
  if v < -32768 ∨ 32767 < v then none
  else
    let u := (v.emod 65536).toNat
    some [u / 256, u % 256]

/-- Instruction.encode: look the pattern up, replace dont-cares by zero,
substitute every operand, parse the resulting binary string (which must by
then consist of 0/1 characters only, or int(bits, 2) raises) and append
the 16-bit two's-complement immediate when one is present. -/
def Instruction.encode (i : Instruction) (followers : List Instruction) :
    Option (List Nat) := do
  let pat ← ENCODINGS.lookup i.mnem
  let bits0 := (encStr pat).map (fun c => if c = '?' then '0' else c)
  let bits ← encodeFields followers bits0 i.ops
  if bits.all (fun c => c = '0' ∨ c = '1') then
    let word := pack_u16 (bitsToNat bits)
    match i.getOp "imm" with
    | some imm => do
      let ib ← pack_i16 imm
      pure (word ++ ib)
    | none => pure word
  else none

/-! ## Decoder (scripts/objdump.py, decode) -/

/-- Display/precedence order of operands (isa.OPERAND_ORDER). -/
def OPERAND_ORDER : List Char := "rsabncmj".toList

/-- _parse_op_m: strip the high-order terminator one bit and read the tag
bits below it, least significant first, as t/f characters. Raises on zero
(no terminator bit). -/
def parse_op_m_go : Nat → Nat → List Char
  | 0, _ => []
  | fuel + 1, enc =>
    if enc ≤ 1 then []
    else (if enc % 2 = 1 then 't' else 'f') :: parse_op_m_go fuel (enc / 2)

/-- _parse_op_m with the zero check; the fuel dominates the value. -/
def parse_op_m (enc : Nat) : Option (List Char) :=
  if enc = 0 then none else some (parse_op_m_go enc enc)

/-- Worker for uniqKeys carrying the characters already seen. -/
def uniqKeysGo : List Char → List Char → List Char
  | _, [] => []
  | seen, c :: rest =>
    if c = '0' ∨ c = '1' ∨ c = '?' ∨ c ∈ seen then uniqKeysGo seen rest
    else c :: uniqKeysGo (c :: seen) rest

/-- The operand keys of a pattern: every character that is not an opcode
bit or a dont-care, in first-occurrence order (the iteration order of the
dict comprehension building ops). -/
def uniqKeys (l : List Char) : List Char := uniqKeysGo [] l

/-- sorted(ops, key=lambda x: isa.OPERAND_ORDER.index(x)): for distinct
keys all drawn from OPERAND_ORDER (a key outside it would raise in
Python), sorting by index is filtering the order list. -/
def sortKeys (ks : List Char) : List Char :=
  OPERAND_ORDER.filter (fun c => c ∈ ks)

/-- The bit mask selecting the positions of one operand letter. -/
def fieldMask (pat : List Char) (k : Char) : Nat :=
  bitsToNat (pat.map (fun x => if x = k then '1' else '0'))

/-- Field extraction: (enc & mask) >> ((mask & -mask).bit_length() - 1).
Python computes mask & -mask on arbitrary-precision two's-complement
integers, isolating the lowest set bit; for the 16-bit masks used here
that equals mask &&& (2^16 - mask). -/
def extractField (enc : Nat) (pat : List Char) (k : Char) : Nat :=
  let mask := fieldMask pat k
  (enc &&& mask) >>> (bit_length (mask &&& (65536 - mask)) - 1)

/-- struct.unpack(">h", two bytes): big-endian signed 16-bit value. -/
def unpack_i16 (b0 b1 : Nat) : Int :=
  let u := b0 * 256 + b1
  if u < 32768 then (u : Int) else (u : Int) - 65536

/-- Replace the value stored under a key of the operand map
(ops[k] = v on an existing key keeps the insertion position). -/
def setOp (ops : List (String × Int)) (k : String) (v : Int) :
    List (String × Int) :=
  ops.map (fun kv => if kv.1 = k then (kv.1, v) else kv)

/-- The per-item tail of the decoder loop once the operand map (with any
immediate already appended) is known: handle a nonzero M operand by
decoding the raw mask into the shadow bit string and storing the follower
count in its place, stamp the predicate tag from the head of the incoming
shadow state, and compute the shadow state left for the next instruction.
Returns the decoded item and that new shadow state. -/
def mkItem (mnem : String) (ops : List (String × Int))
    (condState : List Char) : Option (Instruction × List Char) := do
  let (ops, cexMask, newCond) ←
    match ops.lookup "m" with
    | some m =>
      if m ≠ 0 then do
        let s ← parse_op_m m.toNat
        pure (setOp ops "m" s.length, some m, some s)
      else pure (ops, none, none)
    | none => pure (ops, (none : Option Int), (none : Option (List Char)))
  let cond : Option String :=
    match condState with
    | [] => none
    | c :: _ => some (String.mk ['.', c])
  let condState := condState.tail
  let item : Instruction := ⟨mnem, ops, cond, cexMask⟩
  let condState :=
    if item.num_cond ≠ 0 then
      if mnem = "cex" then newCond.getD [] else ['t']
    else condState
  pure (item, condState)

/-- The decoder loop: take a 16-bit big-endian word, find the unique
mnemonic whose opcode value/mask matches (zero or several matches raise),
extract the operand fields in OPERAND_ORDER, consume a trailing signed
immediate when the C field holds the SP sentinel, then delegate to mkItem
and keep going until the data (or the max_items budget) runs out. The
final shadow state (cond_state, a loop variable the source keeps local)
is returned alongside the items so that follower-tag reconstruction can
be stated. -/
def decodeAux : Nat → List Nat → Option Nat → List Char →
    Option (List Instruction × List Char)
  | _, [], _, condState => some ([], condState)
  | _, [_], _, _ => none
  | 0, _ :: _ :: _, _, _ => none
  | fuel + 1, b0 :: b1 :: rest, maxItems, condState =>
    let enc := b0 * 256 + b1
    let cands :=
      ENCODINGS.filter (fun kv => enc &&& opcodeMask kv.2 == opcodeVal kv.2)
    match cands with
    | [] => none
    | _ :: _ :: _ => none
    | [(mnem, pat)] =>
      let patc := encStr pat
      let keys := sortKeys (uniqKeys patc)
      let ops : List (String × Int) :=
        keys.map (fun k => (String.mk [k], (extractField enc patc k : Int)))
      -- if C is SP then the next 16 bits are a signed immediate
      if (ops.lookup "c").any (fun v => v = 15) then
        match rest with
        | c0 :: c1 :: r2 =>
          match mkItem mnem (ops ++ [("imm", unpack_i16 c0 c1)]) condState with
          | none => none
          | some (item, cs2) =>
            match maxItems with
            | some n =>
              if n ≤ 1 then some ([item], cs2)
              else
                match decodeAux fuel r2 (some (n - 1)) cs2 with
                | none => none
                | some (items, cs) => some (item :: items, cs)
            | none =>
              match decodeAux fuel r2 none cs2 with
              | none => none
              | some (items, cs) => some (item :: items, cs)
        | _ => none
      else
        match mkItem mnem ops condState with
        | none => none
        | some (item, cs2) =>
          match maxItems with
          | some n =>
            if n ≤ 1 then some ([item], cs2)
            else
              match decodeAux fuel rest (some (n - 1)) cs2 with
              | none => none
              | some (items, cs) => some (item :: items, cs)
          | none =>
            match decodeAux fuel rest none cs2 with
            | none => none
            | some (items, cs) => some (item :: items, cs)

/-- decode: check the byte stream has even length (struct.unpack on a
short slice raises) and run the loop with an empty shadow state. The
items are returned; the final shadow state is discarded as in the
source. -/
def decode (data : List Nat) (maxItems : Option Nat) :
    Option (List Instruction) :=
  if data.length % 2 = 1 then none
  else (decodeAux data.length data maxItems []).map (fun r => r.1)

/-! ## Behavioural simulator (scripts/sim.py, class Sim)

State values follow the source: registers are not reset by the hardware
(None until written, except the zero register), the shadow state cond and
the count-op counters are Python integers. Python raising anywhere inside
tick() is modelled by tick returning none; note that the f-string
arguments of every _log call are evaluated eagerly even when verbose is
off, so formatting a None value raises at the log line. -/

/-- Events fired on the simulator callback object, in order. -/
inductive Event where
  | write_reg (reg : Int) (value : Int)
  | write_pred (value : Bool)
  | write_cond (value : Int)
  | write_mem (addr : Int) (value : Int)
  | write_uart (value : Int)
  | write_pin (pin : Int) (value : Int)
  | read_mem (addr : Int)
  | read_uart
  | read_pin (pin : Int)
deriving DecidableEq, Repr

/-- The values the callback object supplies to the simulator. A none
result models the callback either raising or returning a None that the
handler immediately crashes on (None & 0xffff and the eagerly evaluated
log f-strings raise). -/
structure Env where
  read_mem : Int → Option Int
  read_uart : Option Int
  read_pin : Int → Option Int

/-- Architectural and modal state of Sim. -/
structure SimState where
  pc : Nat
  regs : List (Option Int)
  pred : Bool
  cond : Int
  num_count : Int
  max_count : Int
  count_op : Option String
  cin : Int
  ticks : Nat
  out_pins : List (Option Int)
deriving DecidableEq, Repr

/-- Sim.__init__: zero PC, predicate and cond; registers unknown except
the zero register; no count-op active; output pins unknown. -/
def resetState : SimState :=
  { pc := 0, regs := some 0 :: List.replicate 15 none, pred := false,
    cond := 0, num_count := 0, max_count := 0, count_op := none,
    cin := 0, ticks := 0, out_pins := List.replicate 4 none }

/-- Python list indexing for a list of length n: negative indices wrap
once, anything else raises IndexError. -/
def pyIdx (n : Nat) (v : Int) : Option Nat :=
  if 0 ≤ v ∧ v < (n : Int) then some v.toNat
  else if -(n : Int) ≤ v ∧ v < 0 then some (v + n).toNat
  else none

/-- self.regs[v]: the stored value, which may be the unwritten None. -/
def readReg (s : SimState) (v : Int) : Option (Option Int) :=
  (pyIdx 16 v).map (fun i => (s.regs[i]?).getD none)

/-- self.regs[v] when v itself may be None (a missing operand key);
regs[None] raises. -/
def readRegOp (s : SimState) (r : Option Int) : Option (Option Int) :=
  match r with
  | some v => readReg s v
  | none => none

/-- rhs = self.regs[c] if c != isa.REGS["sp"] else imm. A missing c key
(None) is not equal to 15, and regs[None] raises. -/
def regOrImm (s : SimState) (c imm : Option Int) : Option (Option Int) :=
  match c with
  | some cv => if cv = 15 then some imm else readReg s cv
  | none => none

/-- _write_reg: writes with a falsy register (None or 0) are discarded
before anything else happens; otherwise the log f-string evaluates
isa.REGS_INV[reg] (KeyError unless 0 <= reg <= 15), the register is
stored and the callback fires. -/
def writeReg (s : SimState) (reg : Option Int) (value : Int) :
    Option (SimState × List Event) :=
  match reg with
  | none => some (s, [])
  | some r =>
    if r = 0 then some (s, [])
    else if 0 ≤ r ∧ r < 16 then
      some ({s with regs := s.regs.set r.toNat (some value)},
            [.write_reg r value])
    else none

/-- _write_pred: combine with the current predicate per count-op mode
(Python "and"/"or" keep the truthiness of the combined value), store
bool(value) and fire the callback. -/
def writePred (s : SimState) (value : Int) : SimState × List Event :=
  let b : Bool :=
    if s.count_op = some "and" then s.pred && (value ≠ 0)
    else if s.count_op = some "or" then s.pred || (value ≠ 0)
    else value ≠ 0
  ({s with pred := b}, [.write_pred b])

/-- _write_cond. -/
def writeCond (s : SimState) (value : Int) : SimState × List Event :=
  ({s with cond := value}, [.write_cond value])

/-- _write_out_pin: the pin index must be a valid index of the four-entry
list (negative wraps, too large raises). -/
def writeOutPin (s : SimState) (pin : Int) (value : Int) :
    Option (SimState × List Event) := do
  let i ← pyIdx 4 pin
  some ({s with out_pins := s.out_pins.set i (some value)},
        [.write_pin pin value])

/-- _u2s: reinterpret as signed when two's-complement bit 15 is set. -/
def u2s (value : Int) : Int := if pyBit value 15 = 1 then value - 65536 else value

/-- **ops binds the operand map to the handler's keyword parameters; an
operand key outside the parameter list raises TypeError. -/
def opsOk (ops : List (String × Int)) (allowed : List String) : Bool :=
  ops.all (fun kv => allowed.contains kv.1)

/-- carry-in: self.cin only while carry mode is active and the counter
has not elapsed. -/
def cinNow (s : SimState) : Int :=
  if s.count_op = some "carry" ∧ s.num_count < s.max_count then s.cin else 0

/-- _add_sub. -/
def h_add_sub (s : SimState) (mnem : String) (ops : List (String × Int)) :
    Option (SimState × List Event) := do
  if opsOk ops ["a", "b", "c", "imm"] then
    let lhs ← (← readRegOp s (ops.lookup "b"))
    let rhs ← (← regOrImm s (ops.lookup "c") (ops.lookup "imm"))
    let cin := cinNow s
    let value := if mnem = "add" then lhs + rhs + cin else lhs - rhs - cin
    let s := {s with cin := pyBit value 16}
    let value := mask16 value
    writeReg s (ops.lookup "a") value
  else none

/-- _cmp: the eq/ne forms compare the possibly-None lhs directly (None
compares unequal to every number); the ordered and any forms use it
arithmetically and raise on None. The masked rhs always needs a number.
A compare-and-execute mnemonic additionally sets cond to 0b11. -/
def h_cmp (s : SimState) (mnem : String) (ops : List (String × Int)) :
    Option (SimState × List Event) := do
  if opsOk ops ["b", "c", "imm"] then
    let lhs ← readRegOp s (ops.lookup "b")
    let rhs0 ← (← regOrImm s (ops.lookup "c") (ops.lookup "imm"))
    let rhs := mask16 rhs0
    let value : Bool ←
      if mnem = "eq" ∨ mnem = "eqx" then some (decide (lhs = some rhs))
      else if mnem = "ne" ∨ mnem = "nex" then some (decide (lhs ≠ some rhs))
      else do
        let l ← lhs
        if mnem = "lt" ∨ mnem = "ltx" then some (decide (u2s l < u2s rhs))
        else if mnem = "ltu" ∨ mnem = "ltux" then some (decide (l < rhs))
        else if mnem = "ge" ∨ mnem = "gex" then some (decide (u2s l ≥ u2s rhs))
        else if mnem = "geu" ∨ mnem = "geux" then some (decide (l ≥ rhs))
        else if mnem = "any" ∨ mnem = "anyx" then some (pyAnd l rhs != 0)
        else none
    let (s, e1) := writePred s (if value then 1 else 0)
    if mnem.endsWith "x" then
      let (s, e2) := writeCond s 3
      some (s, e1 ++ e2)
    else some (s, e1)
  else none

/-- _jmp: branches add a signed offset to the (already advanced) PC,
jumps are absolute; the link forms first write lr = pc + (1 if imm).
Returns the redirect target. -/
def h_jmp (s : SimState) (mnem : String) (ops : List (String × Int)) :
    Option (SimState × List Event × Option Int) := do
  if opsOk ops ["c", "imm"] then
    let imm := ops.lookup "imm"
    let rhs0 ← (← regOrImm s (ops.lookup "c") imm)
    let isB := mnem.toList.headD ' ' = 'b'
    let lhs : Int := if isB then (s.pc : Int) else 0
    let rhs : Int := if isB then u2s rhs0 else rhs0
    if mnem.toList.getLastD ' ' = 'l' then
      let lr := mask16 ((s.pc : Int) + (if imm.isSome then 1 else 0))
      let (s, evs) ← writeReg s (some 14) lr
      some (s, evs, some (mask16 (lhs + rhs)))
    else
      some (s, [], some (mask16 (lhs + rhs)))
  else none

/-- _utx. -/
def h_utx (s : SimState) (ops : List (String × Int)) :
    Option (SimState × List Event) := do
  if opsOk ops ["c", "imm"] then
    let v ← (← regOrImm s (ops.lookup "c") (ops.lookup "imm"))
    some (s, [.write_uart (mask16 v)])
  else none

/-- _urx. -/
def h_urx (env : Env) (s : SimState) (ops : List (String × Int)) :
    Option (SimState × List Event) := do
  if opsOk ops ["a"] then
    let v ← env.read_uart
    let (s, evs) ← writeReg s (ops.lookup "a") (mask16 v)
    some (s, .read_uart :: evs)
  else none

/-- _cex: write the raw mask (substituted by tick) into cond. -/
def h_cex (s : SimState) (ops : List (String × Int)) :
    Option (SimState × List Event) := do
  if opsOk ops ["m"] then
    let m ← ops.lookup "m"
    some (writeCond s m)
  else none

/-- _inc_dec. -/
def h_inc_dec (s : SimState) (mnem : String) (ops : List (String × Int)) :
    Option (SimState × List Event) := do
  if opsOk ops ["a", "b"] then
    let lhs ← (← readRegOp s (ops.lookup "b"))
    let rhs : Int := if mnem = "inc" then 1 else -1
    writeReg s (ops.lookup "a") (mask16 (lhs + rhs))
  else none

/-- The address offset of the scalar load/store forms: the c operand (or
immediate) when the key is present, otherwise the +-1 implied by the
writeback mnemonic. -/
def ldstOffset (s : SimState) (mnem : String) (ops : List (String × Int)) :
    Option (Option Int) :=
  match ops.lookup "c" with
  | some _ => regOrImm s (ops.lookup "c") (ops.lookup "imm")
  | none => some (some (if mnem.toList.contains '+' then (1 : Int) else -1))

/-- _st: compute the address (base + offset except for the post forms),
write the base back first for the pre forms, read the store datum only
after that address update (so a datum equal to the base register picks up
the written-back value), fire the memory write, and write the base back
for the post forms. -/
def h_st (s : SimState) (mnem : String) (ops : List (String × Int)) :
    Option (SimState × List Event) := do
  if opsOk ops ["a", "b", "c", "imm"] then
    let base ← readRegOp s (ops.lookup "b")
    let offset ← ldstOffset s mnem ops
    let last := mnem.toList.getLastD ' '
    let first := mnem.toList.headD ' '
    let addr0 ←
      if last ≠ '+' ∧ last ≠ '-' then do
        let bv ← base
        let ov ← offset
        pure (bv + ov)
      else base
    let addr := mask16 addr0
    let (s, evs1) ←
      if first = '+' ∨ first = '-' then writeReg s (ops.lookup "b") addr
      else some (s, [])
    let data ← (readRegOp s (ops.lookup "a") : Option (Option Int))
    let data ← data
    let (s, evs3) ←
      if last = '+' ∨ last = '-' then do
        let bv ← base
        let ov ← offset
        writeReg s (ops.lookup "b") (mask16 (bv + ov))
      else some (s, [])
    some (s, evs1 ++ [.write_mem addr data] ++ evs3)
  else none

/-- _ld: same addressing as _st but reading; the loaded value is written
to a only after any writeback (so a load into the base register wins). -/
def h_ld (env : Env) (s : SimState) (mnem : String)
    (ops : List (String × Int)) : Option (SimState × List Event) := do
  if opsOk ops ["a", "b", "c", "imm"] then
    let base ← readRegOp s (ops.lookup "b")
    let offset ← ldstOffset s mnem ops
    let last := mnem.toList.getLastD ' '
    let first := mnem.toList.headD ' '
    let addr0 ←
      if last ≠ '+' ∧ last ≠ '-' then do
        let bv ← base
        let ov ← offset
        pure (bv + ov)
      else base
    let addr := mask16 addr0
    let (s, evs1) ←
      if first = '+' ∨ first = '-' then writeReg s (ops.lookup "b") addr
      else some (s, [])
    let data ← env.read_mem addr
    let (s, evs2) ←
      if last = '+' ∨ last = '-' then do
        let bv ← base
        let ov ← offset
        writeReg s (ops.lookup "b") (mask16 (bv + ov))
      else some (s, [])
    let (s, evs3) ← writeReg s (ops.lookup "a") data
    some (s, evs1 ++ [.read_mem addr] ++ evs2 ++ evs3)
  else none

/-- One iteration of the _ldstm while loop plus the continuation test;
the fuel bounds the iteration count (at most 17 iterations are possible
before the loop either ends or raises, see h_ldstm). -/
def ldstmGo (env : Env) (mnem : String) (s : SimState)
    (r sEnd addr : Int) : Nat → Option (SimState × List Event)
  | 0 => none
  | fuel + 1 => do
    let (s, evs) ←
      if List.IsInfix ['s', 't'] mnem.toList then do
        -- "st" in mnem (substring test)
        let data ← (← readRegOp s (some r))
        pure (s, [Event.write_mem addr data])
      else do
        let data ← env.read_mem addr
        let (s, evs) ← writeReg s (some r) data
        pure (s, Event.read_mem addr :: evs)
    if r = sEnd then some (s, evs)
    else do
      let (s2, evs2) ← ldstmGo env mnem s ((r + 1).emod 16) sEnd
        (mask16 (addr + 1)) fuel
      some (s2, evs ++ evs2)

/-- _ldstm: iterate from register r to s inclusive, wrapping modulo 16,
at consecutive (masked) addresses starting from the base register. The
registers are present on every decoded ldm/stm; the loop runs at most 17
times before r has met s or indexing has raised (after one step r lies in
[0, 16) and then cycles through all residues), so fuel 32 is never
exhausted. -/
def h_ldstm (env : Env) (s : SimState) (mnem : String)
    (ops : List (String × Int)) : Option (SimState × List Event) := do
  if opsOk ops ["r", "s", "b"] then
    let r ← ops.lookup "r"
    let sEnd ← ops.lookup "s"
    let b ← ops.lookup "b"
    let addr ← (← readReg s b)
    ldstmGo env mnem s r sEnd addr 32
  else none

/-- _addpc. -/
def h_addpc (s : SimState) (ops : List (String × Int)) :
    Option (SimState × List Event) := do
  if opsOk ops ["a", "c", "imm"] then
    let rhs ← (← regOrImm s (ops.lookup "c") (ops.lookup "imm"))
    writeReg s (ops.lookup "a") (mask16 ((s.pc : Int) + rhs))
  else none

/-- _bitwise: Python's arbitrary-precision two's-complement operators;
note the result is not masked to 16 bits. -/
def h_bitwise (s : SimState) (mnem : String) (ops : List (String × Int)) :
    Option (SimState × List Event) := do
  if opsOk ops ["a", "b", "c", "imm"] then
    let lhs ← (← readRegOp s (ops.lookup "b"))
    let rhs ← (← regOrImm s (ops.lookup "c") (ops.lookup "imm"))
    let value ←
      if mnem = "and" then some (pyAnd lhs rhs)
      else if mnem = "andn" then some (pyAnd lhs (~~~rhs))
      else if mnem = "or" then some (pyOr lhs rhs)
      else if mnem = "xor" then some (pyXor lhs rhs)
      else none
    writeReg s (ops.lookup "a") value
  else none

/-- _shift: the bitwise ors of the source combine bit ranges that are
disjoint for a value already masked to 16 bits, and are written here as
additions of those ranges. -/
def h_shift (s : SimState) (mnem : String) (ops : List (String × Int)) :
    Option (SimState × List Event) := do
  if opsOk ops ["a", "b"] then
    let v ← (← readRegOp s (ops.lookup "b"))
    let value := mask16 v
    let cin := cinNow s
    if mnem = "srl" then
      -- value = (value >> 1) | (cin << 15)
      let s := {s with cin := mask1 value}
      writeReg s (ops.lookup "a") (value.fdiv 2 + cin * 32768)
    else if mnem = "sra" then
      -- value >>= 1; value |= (value << 1) & 0x8000
      let s := {s with cin := mask1 value}
      let v1 := value.fdiv 2
      writeReg s (ops.lookup "a") (v1 + 32768 * pyBit (2 * v1) 15)
    else if mnem = "ror" then
      -- value |= (value & 1) << 16; value >>= 1
      let s := {s with cin := mask1 value}
      writeReg s (ops.lookup "a") ((value + mask1 value * 65536).fdiv 2)
    else if mnem = "rol" then
      -- value <<= 1; value |= value >> 16; value &= 0xffff
      let s := {s with cin := pyBit value 15}
      let v2 := 2 * value
      writeReg s (ops.lookup "a") (mask16 (v2 + v2.fdiv 65536))
    else none
  else none

/-- _carry: schedule carry mode; the counter starts at -1 so the mode
lasts for the next j instructions. -/
def h_carry (s : SimState) (ops : List (String × Int)) :
    Option (SimState × List Event) := do
  if opsOk ops ["j"] then
    let j ← ops.lookup "j"
    some ({s with num_count := -1, max_count := j,
                  count_op := some "carry", cin := 0}, [])
  else none

/-- _andor_p: count_op = mnem[:-1]. -/
def h_andor_p (s : SimState) (mnem : String) (ops : List (String × Int)) :
    Option (SimState × List Event) := do
  if opsOk ops ["j"] then
    let j ← ops.lookup "j"
    some ({s with num_count := -1, max_count := j,
                  count_op := some (mnem.dropRight 1)}, [])
  else none

/-- _not. -/
def h_not (s : SimState) (ops : List (String × Int)) :
    Option (SimState × List Event) := do
  if opsOk ops ["a", "b"] then
    let v ← (← readRegOp s (ops.lookup "b"))
    writeReg s (ops.lookup "a") (mask16 (~~~v))
  else none

/-- _getp: self.pred & 1 on a Python bool is the integer 0 or 1. -/
def h_getp (s : SimState) (ops : List (String × Int)) :
    Option (SimState × List Event) := do
  if opsOk ops ["a"] then
    writeReg s (ops.lookup "a") (if s.pred then 1 else 0)
  else none

/-- _putp. -/
def h_putp (s : SimState) (ops : List (String × Int)) :
    Option (SimState × List Event) := do
  if opsOk ops ["c", "imm"] then
    let v ← (← regOrImm s (ops.lookup "c") (ops.lookup "imm"))
    some (writePred s (mask1 v))
  else none

/-- _out. -/
def h_out (s : SimState) (mnem : String) (ops : List (String × Int)) :
    Option (SimState × List Event) := do
  if opsOk ops ["n", "c", "imm"] then
    let n ← ops.lookup "n"
    let value ←
      if mnem = "outp" then some (if s.pred then (1 : Int) else 0)
      else do
        let v ← (← regOrImm s (ops.lookup "c") (ops.lookup "imm"))
        let v := mask1 v
        if mnem = "outn" then some (mask1 (~~~v)) else some v
    writeOutPin s n value
  else none

/-- _in: read a pin; the plain form writes a register, the inp forms
write the predicate and inpx also sets cond to 0b11. -/
def h_in (env : Env) (s : SimState) (mnem : String)
    (ops : List (String × Int)) : Option (SimState × List Event) := do
  if opsOk ops ["n", "a"] then
    let n ← ops.lookup "n"
    let v ← env.read_pin n
    let value := mask1 v
    if mnem = "in" then do
      let (s, evs) ← writeReg s (ops.lookup "a") value
      some (s, .read_pin n :: evs)
    else if mnem.startsWith "inp" then
      let (s, e1) := writePred s value
      if mnem.endsWith "x" then
        let (s, e2) := writeCond s 3
        some (s, .read_pin n :: (e1 ++ e2))
      else some (s, .read_pin n :: e1)
    else none
  else none

/-- Which handler each mnemonic dispatches to (self.funcs). -/
inductive HKind where
  | add_sub | bitwise | ld | st | ldstm | inc_dec | shift | hnot
  | urx | getp | cmp | hin | addpc | jmp | out | utx | carry
  | putp | andor_p | cex
deriving DecidableEq, Repr

/-- The self.funcs dispatch table, in source order. -/
def funcs : List (String × HKind) := [
  ("add", .add_sub), ("sub", .add_sub),
  ("and", .bitwise), ("andn", .bitwise), ("or", .bitwise), ("xor", .bitwise),
  ("ld", .ld), ("st", .st), ("ldm", .ldstm), ("stm", .ldstm),
  ("ld+", .ld), ("st+", .st), ("+ld", .ld), ("+st", .st),
  ("ld-", .ld), ("st-", .st), ("-ld", .ld), ("-st", .st),
  ("inc", .inc_dec), ("dec", .inc_dec),
  ("srl", .shift), ("sra", .shift), ("ror", .shift), ("rol", .shift),
  ("not", .hnot), ("urx", .urx), ("getp", .getp),
  ("eq", .cmp), ("ne", .cmp), ("lt", .cmp), ("ltu", .cmp),
  ("ge", .cmp), ("geu", .cmp), ("any", .cmp), ("inp", .hin),
  ("eqx", .cmp), ("nex", .cmp), ("ltx", .cmp), ("ltux", .cmp),
  ("gex", .cmp), ("geux", .cmp), ("anyx", .cmp), ("inpx", .hin),
  ("addpc", .addpc), ("b", .jmp), ("j", .jmp), ("bl", .jmp), ("jl", .jmp),
  ("in", .hin), ("out", .out), ("outn", .out), ("outp", .out),
  ("utx", .utx), ("carry", .carry), ("putp", .putp),
  ("andp", .andor_p), ("orp", .andor_p), ("cex", .cex)]

/-- self.funcs[instr.mnem](instr.mnem, **ops): dispatch to the handler;
an unknown mnemonic raises KeyError. Only the jump handler produces a
redirect. -/
def dispatch (env : Env) (s : SimState) (mnem : String)
    (ops : List (String × Int)) :
    Option (SimState × List Event × Option Int) :=
  match funcs.lookup mnem with
  | none => none
  | some k =>
    match k with
    | .add_sub => (h_add_sub s mnem ops).map (fun r => (r.1, r.2, none))
    | .bitwise => (h_bitwise s mnem ops).map (fun r => (r.1, r.2, none))
    | .ld => (h_ld env s mnem ops).map (fun r => (r.1, r.2, none))
    | .st => (h_st s mnem ops).map (fun r => (r.1, r.2, none))
    | .ldstm => (h_ldstm env s mnem ops).map (fun r => (r.1, r.2, none))
    | .inc_dec => (h_inc_dec s mnem ops).map (fun r => (r.1, r.2, none))
    | .shift => (h_shift s mnem ops).map (fun r => (r.1, r.2, none))
    | .hnot => (h_not s ops).map (fun r => (r.1, r.2, none))
    | .urx => (h_urx env s ops).map (fun r => (r.1, r.2, none))
    | .getp => (h_getp s ops).map (fun r => (r.1, r.2, none))
    | .cmp => (h_cmp s mnem ops).map (fun r => (r.1, r.2, none))
    | .hin => (h_in env s mnem ops).map (fun r => (r.1, r.2, none))
    | .addpc => (h_addpc s ops).map (fun r => (r.1, r.2, none))
    | .jmp => h_jmp s mnem ops
    | .out => (h_out s mnem ops).map (fun r => (r.1, r.2, none))
    | .utx => (h_utx s ops).map (fun r => (r.1, r.2, none))
    | .carry => (h_carry s ops).map (fun r => (r.1, r.2, none))
    | .putp => (h_putp s ops).map (fun r => (r.1, r.2, none))
    | .andor_p => (h_andor_p s mnem ops).map (fun r => (r.1, r.2, none))
    | .cex => (h_cex s ops).map (fun r => (r.1, r.2, none))

/-- _check_run: an invalid shadow state (0 or 1) always runs; otherwise
consume the lowest bit and run iff it equals the predicate. -/
def check_run (s : SimState) : Bool × SimState :=
  if s.cond = 0 ∨ s.cond = 1 then (true, s)
  else
    let c := s.cond.emod 2
    ((c == 1) == s.pred, {s with cond := s.cond.fdiv 2})

/-- ops[m] = instr.cex_mask replaces (or inserts) the key, keeping
dict insertion order. -/
def setOpAdd (ops : List (String × Int)) (k : String) (v : Int) :
    List (String × Int) :=
  if ops.any (fun kv => kv.1 = k) then setOp ops k v else ops ++ [(k, v)]

/-- Sim.tick, given the instruction the fetch callback returned: advance
the PC over any immediate word, decide predicated execution, dispatch,
then redirect the PC (a falsy redirect of None or 0 falls through to the
next sequential address), and advance the count-op machinery. A cex
without a stored mask puts None into the m operand and _write_cond then
raises in bin(None) before mutating anything. -/
def tick (env : Env) (s0 : SimState) (instr : Instruction) :
    Option (SimState × List Event) := do
  let pcNext := s0.pc + instr.size
  let s1 := {s0 with pc := s0.pc + (if instr.hasImm then 1 else 0)}
  let run := (check_run s1).1
  let s2 := (check_run s1).2
  let (s3, evs, redirect) ←
    if run then do
      let ops ←
        if instr.mnem = "cex" then
          match instr.cex_mask with
          | some v => some (setOpAdd instr.ops "m" v)
          | none => none
        else some instr.ops
      dispatch env s2 instr.mnem ops
    else some (s2, [], none)
  let pcFinal : Nat :=
    match redirect with
    | some r => if r ≠ 0 then r.toNat else pcNext
    | none => pcNext
  let s4 := {s3 with pc := pcFinal}
  let s5 := {s4 with num_count :=
    if s4.num_count < s4.max_count then s4.num_count + 1 else s4.num_count}
  let s6 := {s5 with count_op :=
    if s5.num_count ≥ s5.max_count then none else s5.count_op}
  some ({s6 with ticks := s6.ticks + 1}, evs)

/-! ## Driving the simulator from a binary (sim.py, __main__ and Cb) -/

/-- The memory/UART/pin environment of the __main__ callback object:
16-bit words addressed by Python integers, UART buffers, input pins. -/
structure Machine where
  mem : Int → Option Nat
  uart_rx : List Int
  uart_tx : List Int
  pins : Int → Option Int
  sim : SimState

/-- Cb.fetch: read the word at pc (uninitialised memory raises), append
the following word when present, and decode a single instruction; decode
returning no items would raise IndexError. -/
def fetchInstr (mem : Int → Option Nat) (pc : Nat) : Option Instruction := do
  let w ← mem pc
  let bytes := pack_u16 w ++
    (match mem ((pc : Int) + 1) with
     | some w2 => pack_u16 w2
     | none => [])
  let items ← decode bytes (some 1)
  items.head?

/-- Replay one callback event against the machine: Cb.write_mem packs the
value with ">H" (raising outside [0, 2^16)), Cb.write_uart appends,
Cb.read_uart pops the input buffer (the tick already consumed its head
through Env). The observer hooks change nothing. -/
def applyEvent (m : Machine) (e : Event) : Option Machine :=
  match e with
  | .write_mem a v =>
    if v < 0 ∨ 65536 ≤ v then none
    else some {m with mem := fun x => if x = a then some v.toNat else m.mem x}
  | .write_uart v => some {m with uart_tx := m.uart_tx ++ [v]}
  | .read_uart => some {m with uart_rx := m.uart_rx.tail}
  | _ => some m

/-- One iteration of the __main__ loop: fetch through the callback, run a
tick with the callback data visible to it, then replay the mutating
callback events onto the machine (each tick reads the UART at most once
and a tick either completes or the run aborts, so replaying the writes
after the tick is equivalent to the interleaved mutation). -/
def step (m : Machine) : Option Machine := do
  let instr ← fetchInstr m.mem m.sim.pc
  let env : Env :=
    { read_mem := fun a => (m.mem a).map (fun w => (w : Int)),
      read_uart := m.uart_rx.head?,
      read_pin := m.pins }
  let (s, evs) ← tick env m.sim instr
  evs.foldlM applyEvent {m with sim := s}

/-- Run n ticks. -/
def runN : Nat → Machine → Option Machine
  | 0, m => some m
  | n + 1, m => (step m).bind (runN n)

/-- A machine at simulator reset over a given memory image. -/
def machine0 (mem : Int → Option Nat) (rx : List Int)
    (pins : Int → Option Int) : Machine :=
  { mem := mem, uart_rx := rx, uart_tx := [], pins := pins,
    sim := resetState }

/-! ## Assembler pieces (scripts/asm.py) -/

/-- parse_instr's immediate range check: a numeric c operand is accepted
iff it is within the maximum range of min_signed, max_unsigned; outside
it the assembler aborts with an out-of-range error. -/
def asm_imm_ok (imm : Int) : Bool := !(imm < -32768 ∨ imm > 65535)

/-- The encode loop of asm.py: each item is encoded with all following
items as its followers and the bytes are concatenated. -/
def encodeItems : List Instruction → Option (List Nat)
  | [] => some []
  | i :: rest => do
    let b ← i.encode rest
    let bs ← encodeItems rest
    pure (b ++ bs)

/-- The Cb constructor of sim.py splits the binary into 16-bit words, one
per address (a trailing odd byte is dropped). -/
def wordsOf : List Nat → List Nat
  | b0 :: b1 :: rest => (b0 * 256 + b1) :: wordsOf rest
  | _ => []

/-- Word-addressed memory image of a byte stream. -/
def memOfBytes (bytes : List Nat) : Int → Option Nat := fun a =>
  if 0 ≤ a then (wordsOf bytes).get? a.toNat else none

/-! ## Helper definitions for the claim statements -/

/-- An environment whose callbacks supply nothing. -/
def envEmpty : Env :=
  { read_mem := fun _ => none, read_uart := none, read_pin := fun _ => none }

/-- The memory writes of an event trace, in order. -/
def memWrites (evs : List Event) : List (Int × Int) :=
  evs.filterMap (fun e =>
    match e with
    | .write_mem a v => some (a, v)
    | _ => none)

/-- A simulator state with one register holding a value. -/
def withReg (s : SimState) (r : Nat) (v : Int) : SimState :=
  {s with regs := s.regs.set r (some v)}

/-- Bitwise and of two 0/1 character strings, position by position. -/
def zipAnd (xs ys : List Char) : List Char :=
  List.zipWith (fun a b => if a = '1' ∧ b = '1' then '1' else '0') xs ys

/-- The character transform applied to a pattern before encoding:
dont-cares become zero. -/
def quest0 (c : Char) : Char := if c = '?' then '0' else c

/-- The character transform defining OPCODE_MASKS. -/
def maskChar (c : Char) : Char := if c = '0' ∨ c = '1' then '1' else '0'

/-- The character transform defining OPCODES. -/
def valChar (c : Char) : Char := if c = '0' ∨ c = '1' then c else '0'

/-- Run a sequence of fetched instructions, one tick each; this is the
tick loop with the fetch callback supplying the given stream (for a
straight-line program the per-PC decode of Cb.fetch returns exactly the
decoded instruction list). -/
def ticks_run (env : Env) : SimState → List Instruction → Option SimState
  | s, [] => some s
  | s, i :: rest => (tick env s i).bind (fun r => ticks_run env r.1 rest)

/-- The instruction of the assembly line "add r1, zr, 0x1234": operands
a = r1, b = zr and a numeric c operand, which parse_instr records as the
SP sentinel plus an imm entry (grammar operand order a, b, c). -/
def addImm1234 : Instruction :=
  ⟨"add", [("a", 1), ("b", 0), ("c", 15), ("imm", 0x1234)], none, none⟩

/-- The three parsed instructions of the C5 program "cex 2" /
"add.t r1, zr, 1" / "add.f r2, zr, 2" as parse_instr builds them. -/
def progC5 : List Instruction :=
  [⟨"cex", [("m", 2)], none, none⟩,
   ⟨"add", [("a", 1), ("b", 0), ("c", 15), ("imm", 1)], some ".t", none⟩,
   ⟨"add", [("a", 2), ("b", 0), ("c", 15), ("imm", 2)], some ".f", none⟩]

/-- The assembled bytes of progC5. -/
def bytesC5 : List Nat :=
  [0xE0, 0x05, 0x01, 0x0F, 0x00, 0x01, 0x02, 0x0F, 0x00, 0x02]

/-- Reset state with p = 1 and known values in r1 and r2. -/
def simC5 (v1 v2 : Int) : SimState :=
  { resetState with
    pred := true
    regs := (resetState.regs.set 1 (some v1)).set 2 (some v2) }

/-- What the decoder recovers from bytesC5: the cex instruction carries
its raw mask and the follower count, the two adds carry the .t/.f tags
reconstructed from the shadow state. -/
def progC5dec : List Instruction :=
  [⟨"cex", [("m", 2)], none, some 5⟩,
   ⟨"add", [("a", 1), ("b", 0), ("c", 15), ("imm", 1)], some ".t", none⟩,
   ⟨"add", [("a", 2), ("b", 0), ("c", 15), ("imm", 2)], some ".f", none⟩]

/-! # Theorems -/

set_option maxRecDepth 100000

set_option maxHeartbeats 4000000

/-- Shared table fact: for every two distinct mnemonics the opcode values
differ on the intersection of the two masks. -/
theorem encodings_pairwise :
    ∀ p1 ∈ ENCODINGS, ∀ p2 ∈ ENCODINGS, p1.1 ≠ p2.1 →
      opcodeVal p1.2 &&& (opcodeMask p1.2 &&& opcodeMask p2.2) ≠
      opcodeVal p2.2 &&& (opcodeMask p1.2 &&& opcodeMask p2.2) := by decide

/-! ## C1: store datum versus base-register writeback -/

/-- C1 (counterexample): the claim says every store with base writeback
stores the value the data register held before the writeback. For the
pre-increment form "+st r3, r3" with r3 = 0x100 the handler performs the
writeback first and then reads the datum, so memory receives 0x101 (the
written-back base), not the original 0x100. -/
theorem C1_counterexample :
    (tick envEmpty (withReg resetState 3 0x100)
        ⟨"+st", [("a", 3), ("b", 3)], none, none⟩).map (fun r => memWrites r.2) =
      some [(0x101, 0x101)] ∧ ((0x101 : Int), (0x101 : Int)) ≠ ((0x101 : Int), (0x100 : Int)) := by
  decide

/-- C1 (amended): the post-writeback stores st+ and st- write the datum
read before any writeback (so a datum register equal to the base stores
the original value), while the pre-writeback stores +st and -st with
data register equal to the base register read the datum only after the
writeback and therefore store the updated base (base plus or minus one,
masked to 16 bits). Stated over the store handler Sim._st, to which tick
dispatches every store mnemonic. -/
theorem C1_amended_store_order (s : SimState) (a b va vb : Int)
    (hb0 : 1 ≤ b) (hb1 : b < 16)
    (hva : readReg s a = some (some va)) (hvb : readReg s b = some (some vb)) :
    (∀ mnem ∈ (["st+", "st-"] : List String), ∀ res,
        h_st s mnem [("a", a), ("b", b)] = some res →
        memWrites res.2 = [(mask16 vb, va)]) ∧
    (∀ res, h_st s "+st" [("a", b), ("b", b)] = some res →
        memWrites res.2 = [(mask16 (vb + 1), mask16 (vb + 1))]) ∧
    (∀ res, h_st s "-st" [("a", b), ("b", b)] = some res →
        memWrites res.2 = [(mask16 (vb - 1), mask16 (vb - 1))]) := by
  have hidx : pyIdx 16 b = some b.toNat := by
    unfold pyIdx
    have h1 : (0 : Int) ≤ b ∧ b < ((16 : Nat) : Int) := by constructor <;> omega
    rw [if_pos h1]
  have hlen : b.toNat < s.regs.length := by
    by_contra hc
    simp only [readReg, hidx, Option.map_some'] at hvb
    rw [List.getElem?_eq_none (by omega)] at hvb
    simp at hvb
  have hset : ∀ w : Int, readReg {s with regs := s.regs.set b.toNat (some w)} b
      = some (some w) := by
    intro w
    simp only [readReg, hidx, Option.map_some', List.getElem?_set_self hlen,
      Option.getD_some]
  refine ⟨?_, ?_, ?_⟩
  · intro mnem hm res hres
    simp only [List.mem_cons, List.mem_singleton, List.not_mem_nil, or_false] at hm
    rcases hm with h | h
    all_goals subst h
    all_goals
      simp only [h_st, opsOk, ldstOffset, readRegOp, List.lookup, writeReg,
        hva, hvb] at hres
    all_goals simp_all [memWrites]
    all_goals
      rw [if_neg (show ¬(b = 0) by omega),
        if_pos (show (0 : Int) ≤ b by omega)] at hres
    all_goals simp at hres
    all_goals subst hres
    all_goals simp [memWrites]
  · intro res hres
    simp only [h_st, opsOk, ldstOffset, readRegOp, List.lookup, writeReg,
      hvb] at hres
    simp_all [memWrites]
    rw [if_neg (show ¬(b = 0) by omega),
      if_pos (show (0 : Int) ≤ b by omega)] at hres
    simp [hset] at hres
    subst hres
    simp [memWrites]
  · intro res hres
    simp only [h_st, opsOk, ldstOffset, readRegOp, List.lookup, writeReg,
      hvb] at hres
    simp_all [memWrites]
    rw [if_neg (show ¬(b = 0) by omega),
      if_pos (show (0 : Int) ≤ b by omega)] at hres
    simp [hset] at hres
    subst hres
    simp [memWrites, sub_eq_add_neg]

/-- C1 witness: the amended theorem applied to "st+ r3, r3" with
r3 = 0x100: the store writes the original 0x100. -/
theorem C1_amended_witness :
    memWrites [Event.write_mem 256 256, Event.write_reg 3 257] = [(256, 256)] :=
  (C1_amended_store_order (withReg resetState 3 256) 3 3 256 256
      (by decide) (by decide) (by decide) (by decide)).1 "st+" (by decide)
    (withReg (withReg resetState 3 256) 3 257,
      [Event.write_mem 256 256, Event.write_reg 3 257]) (by decide)

/-! ## C4: immediate range versus encodability -/

/-- C4: the parser accepts a numeric immediate of 32768 (it lies inside
the documented range [-32768, 65535]), but Instruction.encode packs the
immediate with the signed ">h" format and raises, so assembly aborts;
only immediates in [-32768, 32767] encode, each to one trailing 16-bit
two's-complement word. -/
theorem C4_imm_range_encode :
    asm_imm_ok 32768 = true ∧
    Instruction.encode ⟨"add", [("a", 1), ("b", 0), ("c", 15), ("imm", 32768)],
        none, none⟩ [] = none ∧
    (∀ imm : Int, -32768 ≤ imm → imm ≤ 32767 →
      Instruction.encode ⟨"add", [("a", 1), ("b", 0), ("c", 15), ("imm", imm)],
          none, none⟩ [] =
        some ([1, 15] ++
          [(imm.emod 65536).toNat / 256, (imm.emod 65536).toNat % 256])) := by
  refine ⟨by decide, by decide, fun imm h1 h2 => ?_⟩
  have h : Instruction.encode ⟨"add", [("a", 1), ("b", 0), ("c", 15), ("imm", imm)],
      none, none⟩ [] = (pack_i16 imm).bind (fun ib => some ([1, 15] ++ ib)) := rfl
  rw [h, pack_i16, if_neg (by omega)]
  rfl

/-- C4 witness: the encodable part of the theorem at imm = -2. -/
theorem C4_witness :
    Instruction.encode ⟨"add", [("a", 1), ("b", 0), ("c", 15), ("imm", -2)],
        none, none⟩ [] = some [1, 15, 255, 254] :=
  (C4_imm_range_encode.2.2 (-2) (by decide) (by decide)).trans (by decide)

/-! ## C5: the cex shadow scenario -/

/-- C5: assembling "cex 2" / "add.t r1, zr, 1" / "add.f r2, zr, 2" gives
bytesC5, decoding those bytes gives progC5dec (with the .t/.f tags
reconstructed), and running the three decoded instructions for three
ticks from reset with p = 1 and arbitrary known r1, r2 leaves r1 = 1 and
r2 unchanged: the .t follower executes, the .f follower is skipped. (For
this straight-line program the per-PC decode performed by the fetch
callback returns exactly this instruction stream.) -/
theorem C5_cex_shadow (v1 v2 : Int) :
    encodeItems progC5 = some bytesC5 ∧
    decode bytesC5 none = some progC5dec ∧
    (ticks_run envEmpty (simC5 v1 v2) progC5dec).map
        (fun s => (s.regs[1]?, s.regs[2]?)) =
      some (some (some 1), some (some v2)) :=
  ⟨by decide, by decide, rfl⟩

/-- C5 witness: the scenario at r1 = 111, r2 = 222. -/
theorem C5_witness :
    encodeItems progC5 = some bytesC5 ∧
    decode bytesC5 none = some progC5dec ∧
    (ticks_run envEmpty (simC5 111 222) progC5dec).map
        (fun s => (s.regs[1]?, s.regs[2]?)) =
      some (some (some 1), some (some 222)) :=
  C5_cex_shadow 111 222

/-! ## C6: no encoding collisions -/

/-- C6: for every pair of distinct mnemonics the opcode values differ on
the intersection of the two masks, and consequently no 16-bit word
matches the value/mask test of both mnemonics, so the decoder match for
any word is unique. -/
theorem C6_no_encoding_collision :
    ∀ p1 ∈ ENCODINGS, ∀ p2 ∈ ENCODINGS, p1.1 ≠ p2.1 →
      (opcodeVal p1.2 &&& (opcodeMask p1.2 &&& opcodeMask p2.2) ≠
       opcodeVal p2.2 &&& (opcodeMask p1.2 &&& opcodeMask p2.2)) ∧
      ∀ w : Nat, ¬(w &&& opcodeMask p1.2 = opcodeVal p1.2 ∧
                   w &&& opcodeMask p2.2 = opcodeVal p2.2) := by
  intro p1 h1 p2 h2 hne
  refine ⟨encodings_pairwise p1 h1 p2 h2 hne, fun w hw => ?_⟩
  obtain ⟨e1, e2⟩ := hw
  apply encodings_pairwise p1 h1 p2 h2 hne
  rw [← e1, ← e2, Nat.land_assoc, Nat.land_assoc]
  congr 1
  rw [← Nat.land_assoc, Nat.and_self, ← Nat.land_assoc,
    Nat.land_comm (opcodeMask p2.2) (opcodeMask p1.2), Nat.land_assoc,
    Nat.and_self]

/-- C6 witness: the collision freedom of add and sub, and no word
matching both, via the theorem. -/
theorem C6_witness :
    (("add", "0000_aaaa_bbbb_cccc") : String × String) ∈ ENCODINGS ∧
    ¬((0 : Nat) &&& opcodeMask "0000_aaaa_bbbb_cccc" =
        opcodeVal "0000_aaaa_bbbb_cccc" ∧
      (0 : Nat) &&& opcodeMask "0001_aaaa_bbbb_cccc" =
        opcodeVal "0001_aaaa_bbbb_cccc") :=
  ⟨by decide,
   (C6_no_encoding_collision ("add", "0000_aaaa_bbbb_cccc") (by decide)
      ("sub", "0001_aaaa_bbbb_cccc") (by decide) (by decide)).2 0⟩

/-! ## C7: putp under an active count-op mode -/

/-- C7: the claim says putp always sets p to the low bit of its operand
and that count-op combining applies only to comparisons. In the code
Sim._putp routes through Sim._write_pred, which applies the andp/orp
combine to every predicate write: with andp mode active and p = 0,
"putp 1" leaves p = 0 (the claim requires p = 1); without a count-op the
same instruction sets p = 1. -/
theorem C7_putp_combines :
    (tick envEmpty { resetState with count_op := some "and", max_count := 2 }
        ⟨"putp", [("c", 15), ("imm", 1)], none, none⟩).map (fun r => r.1.pred) =
      some false ∧
    (tick envEmpty resetState
        ⟨"putp", [("c", 15), ("imm", 1)], none, none⟩).map (fun r => r.1.pred) =
      some true ∧
    mask1 1 = 1 := by
  decide

/-! ## C8: bitwise results are not masked -/

/-- C8: the claim says the bitwise instructions always write a value in
[0, 0xffff]. Sim._bitwise does not mask its result (every sibling
arithmetic handler does), so "or r1, zr, -1" with a negative decoded
immediate writes the Python value -1 to r1, outside [0, 0xffff]. -/
theorem C8_bitwise_unmasked :
    (tick envEmpty resetState
        ⟨"or", [("a", 1), ("b", 0), ("c", 15), ("imm", -1)], none, none⟩).map
      (fun r => r.1.regs[1]?) = some (some (some (-1))) ∧
    ¬(0 ≤ (-1 : Int) ∧ (-1 : Int) ≤ 65535) := by
  decide

/-! ## C9: the add-with-immediate scenario -/

/-- C9 (counterexample): the claim states the assembled bytes of
"add r1, zr, 0x1234" are 0x00 0x1F 0x12 0x34; the encoder actually
produces 0x01 0x0F 0x12 0x34 (a = 1 and b = 0 sit in the two middle
nibbles of the first word: 0000 0001 0000 1111). -/
theorem C9_counterexample :
    Instruction.encode addImm1234 [] = some [0x01, 0x0F, 0x12, 0x34] ∧
    ([0x01, 0x0F, 0x12, 0x34] : List Nat) ≠ [0x00, 0x1F, 0x12, 0x34] := by
  decide

/-- C9 (amended): assembling "add r1, zr, 0x1234" produces the bytes
0x01 0x0F 0x12 0x34, and one simulator tick from reset on that binary
leaves regs[1] = 0x1234 and pc = 2. -/
theorem C9_add_imm_scenario :
    Instruction.encode addImm1234 [] = some [0x01, 0x0F, 0x12, 0x34] ∧
    (runN 1 (machine0 (memOfBytes [0x01, 0x0F, 0x12, 0x34]) []
        (fun _ => none))).map (fun m => (m.sim.regs[1]?, m.sim.pc)) =
      some (some (some 0x1234), 2) := by
  decide

/-! ## C10: the frame effect of a skipped instruction -/

/-- C10: when the shadow state holds bits beyond its terminator (cond is
neither 0 nor 1) and its low bit disagrees with the predicate, the tick
skips the fetched instruction: it consumes exactly one cond bit, advances
the PC past the instruction and its immediate word, applies the count-op
counter update, increments the tick counter, and leaves the registers,
predicate, carry latch and output pins unchanged while firing no
callbacks at all (so memory, pins and the UART are untouched). -/
theorem C10_skip_frame (env : Env) (s : SimState) (instr : Instruction)
    (h0 : s.cond ≠ 0) (h1 : s.cond ≠ 1)
    (hskip : ((s.cond.emod 2 == 1) == s.pred) = false) :
    tick env s instr =
      some ({ s with
              pc := s.pc + instr.size
              cond := s.cond.fdiv 2
              num_count := if s.num_count < s.max_count then s.num_count + 1
                           else s.num_count
              count_op := if (if s.num_count < s.max_count then s.num_count + 1
                              else s.num_count) ≥ s.max_count then none
                          else s.count_op
              ticks := s.ticks + 1 }, []) := by
  cases s with
  | mk pc regs pred cond nc mc co cin ticks pins =>
    simp only [tick, check_run] at *
    simp [h0, h1, hskip]

/-- C10 witness: a skipped utx from a state with cond = 2 and p = 1 fires
nothing and only steps the control state. -/
theorem C10_witness :
    tick envEmpty { resetState with cond := 2, pred := true }
        ⟨"utx", [("c", 5)], none, none⟩ =
      some ({ resetState with cond := 1, pred := true, pc := 1, ticks := 1 },
        []) := by
  have h := C10_skip_frame envEmpty { resetState with cond := 2, pred := true }
    ⟨"utx", [("c", 5)], none, none⟩ (by decide) (by decide) (by decide)
  rw [h]
  rfl



/-! ## C3: the zero-register invariant -/

theorem writeReg_regs0 {s : SimState} {reg : Option Int} {v : Int}
    {s' : SimState} {evs : List Event}
    (h : writeReg s reg v = some (s', evs)) : s'.regs[0]? = s.regs[0]? := by
  match reg with
  | none =>
    simp [writeReg] at h
    simp [← h.1]
  | some r =>
    by_cases h0 : r = 0
    · simp [writeReg, h0] at h
      simp [← h.1]
    · by_cases hr : 0 ≤ r ∧ r < 16
      · simp [writeReg, h0, hr] at h
        obtain ⟨hs, -⟩ := h
        subst hs
        simp
        rw [List.getElem?_set_ne (by omega)]
      · simp [writeReg, h0, hr] at h

theorem h_add_sub_regs0 {s : SimState} {mnem : String}
    {ops : List (String × Int)} {s' : SimState} {evs : List Event}
    (h : h_add_sub s mnem ops = some (s', evs)) : s'.regs[0]? = s.regs[0]? := by
  by_cases hok : opsOk ops ["a", "b", "c", "imm"] = true
  · rcases hb : readRegOp s (List.lookup "b" ops) with _ | (_ | lhs) <;>
      rcases hc : regOrImm s (List.lookup "c" ops) (List.lookup "imm" ops) with
        _ | (_ | rhs) <;>
      simp [h_add_sub, hok, hb, hc] at h <;>
      simpa using writeReg_regs0 h
  · simp [h_add_sub, hok] at h

theorem h_inc_dec_regs0 {s : SimState} {mnem : String}
    {ops : List (String × Int)} {s' : SimState} {evs : List Event}
    (h : h_inc_dec s mnem ops = some (s', evs)) : s'.regs[0]? = s.regs[0]? := by
  by_cases hok : opsOk ops ["a", "b"] = true
  · rcases hb : readRegOp s (List.lookup "b" ops) with _ | (_ | lhs) <;>
      simp [h_inc_dec, hok, hb] at h <;>
      simpa using writeReg_regs0 h
  · simp [h_inc_dec, hok] at h

theorem h_not_regs0 {s : SimState}
    {ops : List (String × Int)} {s' : SimState} {evs : List Event}
    (h : h_not s ops = some (s', evs)) : s'.regs[0]? = s.regs[0]? := by
  by_cases hok : opsOk ops ["a", "b"] = true
  · rcases hb : readRegOp s (List.lookup "b" ops) with _ | (_ | lhs) <;>
      simp [h_not, hok, hb] at h <;>
      simpa using writeReg_regs0 h
  · simp [h_not, hok] at h

theorem h_getp_regs0 {s : SimState}
    {ops : List (String × Int)} {s' : SimState} {evs : List Event}
    (h : h_getp s ops = some (s', evs)) : s'.regs[0]? = s.regs[0]? := by
  by_cases hok : opsOk ops ["a"] = true
  · simp only [h_getp, hok, if_true] at h
    simpa using writeReg_regs0 h
  · simp [h_getp, hok] at h

theorem h_addpc_regs0 {s : SimState}
    {ops : List (String × Int)} {s' : SimState} {evs : List Event}
    (h : h_addpc s ops = some (s', evs)) : s'.regs[0]? = s.regs[0]? := by
  by_cases hok : opsOk ops ["a", "c", "imm"] = true
  · rcases hc : regOrImm s (List.lookup "c" ops) (List.lookup "imm" ops) with
        _ | (_ | rhs) <;>
      simp [h_addpc, hok, hc] at h <;>
      simpa using writeReg_regs0 h
  · simp [h_addpc, hok] at h

theorem writeOutPin_regs0 {s : SimState} {pin v : Int} {s' : SimState}
    {evs : List Event} (h : writeOutPin s pin v = some (s', evs)) :
    s'.regs[0]? = s.regs[0]? := by
  rcases hp : pyIdx 4 pin with _ | i <;> simp [writeOutPin, hp] at h
  simp [← h.1]

theorem h_utx_regs0 {s : SimState}
    {ops : List (String × Int)} {s' : SimState} {evs : List Event}
    (h : h_utx s ops = some (s', evs)) : s'.regs[0]? = s.regs[0]? := by
  by_cases hok : opsOk ops ["c", "imm"] = true
  · rcases hc : regOrImm s (List.lookup "c" ops) (List.lookup "imm" ops) with
        _ | (_ | v) <;>
      simp [h_utx, hok, hc] at h <;>
      simp [← h.1]
  · simp [h_utx, hok] at h

theorem h_cex_regs0 {s : SimState}
    {ops : List (String × Int)} {s' : SimState} {evs : List Event}
    (h : h_cex s ops = some (s', evs)) : s'.regs[0]? = s.regs[0]? := by
  by_cases hok : opsOk ops ["m"] = true
  · rcases hm : List.lookup "m" ops with _ | m <;>
      simp [h_cex, hok, hm, writeCond] at h
    simp [← h.1]
  · simp [h_cex, hok] at h

theorem h_carry_regs0 {s : SimState}
    {ops : List (String × Int)} {s' : SimState} {evs : List Event}
    (h : h_carry s ops = some (s', evs)) : s'.regs[0]? = s.regs[0]? := by
  by_cases hok : opsOk ops ["j"] = true
  · rcases hj : List.lookup "j" ops with _ | j <;>
      simp [h_carry, hok, hj] at h
    simp [← h.1]
  · simp [h_carry, hok] at h

theorem h_andor_p_regs0 {s : SimState} {mnem : String}
    {ops : List (String × Int)} {s' : SimState} {evs : List Event}
    (h : h_andor_p s mnem ops = some (s', evs)) : s'.regs[0]? = s.regs[0]? := by
  by_cases hok : opsOk ops ["j"] = true
  · rcases hj : List.lookup "j" ops with _ | j <;>
      simp [h_andor_p, hok, hj] at h
    simp [← h.1]
  · simp [h_andor_p, hok] at h

theorem h_putp_regs0 {s : SimState}
    {ops : List (String × Int)} {s' : SimState} {evs : List Event}
    (h : h_putp s ops = some (s', evs)) : s'.regs[0]? = s.regs[0]? := by
  by_cases hok : opsOk ops ["c", "imm"] = true
  · rcases hc : regOrImm s (List.lookup "c" ops) (List.lookup "imm" ops) with
        _ | (_ | v) <;>
      simp [h_putp, hok, hc, writePred] at h <;>
      simp [← h.1]
  · simp [h_putp, hok] at h

theorem h_out_regs0 {s : SimState} {mnem : String}
    {ops : List (String × Int)} {s' : SimState} {evs : List Event}
    (h : h_out s mnem ops = some (s', evs)) : s'.regs[0]? = s.regs[0]? := by
  by_cases hok : opsOk ops ["n", "c", "imm"] = true
  · by_cases hm : mnem = "outp"
    · rcases hn : List.lookup "n" ops with _ | n <;>
        simp [h_out, hok, hm, hn] at h
      exact writeOutPin_regs0 h
    · by_cases hm2 : mnem = "outn" <;>
        · rcases hn : List.lookup "n" ops with _ | n <;>
            rcases hc : regOrImm s (List.lookup "c" ops) (List.lookup "imm" ops)
              with _ | (_ | v) <;>
            simp [h_out, hok, hm, hm2, hn, hc] at h <;>
            exact writeOutPin_regs0 h
  · simp [h_out, hok] at h

theorem h_urx_regs0 {env : Env} {s : SimState}
    {ops : List (String × Int)} {s' : SimState} {evs : List Event}
    (h : h_urx env s ops = some (s', evs)) : s'.regs[0]? = s.regs[0]? := by
  by_cases hok : opsOk ops ["a"] = true
  · rcases hv : env.read_uart with _ | v <;> simp [h_urx, hok, hv] at h
    rcases hw : writeReg s (List.lookup "a" ops) (mask16 v) with _ | ⟨s2, evs2⟩ <;>
      simp [hw] at h
    obtain ⟨h1, -⟩ := h
    subst h1
    exact writeReg_regs0 hw
  · simp [h_urx, hok] at h

theorem h_jmp_regs0 {s : SimState} {mnem : String}
    {ops : List (String × Int)} {s' : SimState} {evs : List Event}
    {rd : Option Int}
    (h : h_jmp s mnem ops = some (s', evs, rd)) : s'.regs[0]? = s.regs[0]? := by
  by_cases hok : opsOk ops ["c", "imm"] = true
  · by_cases hl : mnem.toList.getLastD ' ' = 'l' <;> (try simp at hl)
    · rcases hi : List.lookup "imm" ops with _ | iv
      · rcases hc : regOrImm s (List.lookup "c" ops) none with
            _ | (_ | rhs0) <;>
          simp [h_jmp, hok, hl, hc, hi] at h
        rcases hw : writeReg s (some 14) (mask16 (s.pc : Int)) with
            _ | ⟨s2, evs2⟩ <;>
          simp [hw] at h
        obtain ⟨h1, -⟩ := h
        subst h1
        exact writeReg_regs0 hw
      · rcases hc : regOrImm s (List.lookup "c" ops) (some iv) with
            _ | (_ | rhs0) <;>
          simp [h_jmp, hok, hl, hc, hi] at h
        rcases hw : writeReg s (some 14) (mask16 ((s.pc : Int) + 1)) with
            _ | ⟨s2, evs2⟩ <;>
          simp [hw] at h
        obtain ⟨h1, -⟩ := h
        subst h1
        exact writeReg_regs0 hw
    · rcases hc : regOrImm s (List.lookup "c" ops) (List.lookup "imm" ops)
        with _ | (_ | rhs0) <;>
        simp [h_jmp, hok, hl, hc] at h
      obtain ⟨h1, -⟩ := h
      subst h1
      rfl
  · simp [h_jmp, hok] at h

theorem h_cmp_regs0 {s : SimState} {mnem : String}
    {ops : List (String × Int)} {s' : SimState} {evs : List Event}
    (h : h_cmp s mnem ops = some (s', evs)) : s'.regs[0]? = s.regs[0]? := by
  by_cases hok : opsOk ops ["b", "c", "imm"] = true
  · rcases hb : readRegOp s (List.lookup "b" ops) with _ | lhs <;>
      rcases hc : regOrImm s (List.lookup "c" ops) (List.lookup "imm" ops) with
        _ | (_ | rhs0) <;>
      simp [h_cmp, hok, hb, hc] at h
    by_cases h1 : mnem = "eq" ∨ mnem = "eqx"
    · rw [if_pos h1] at h
      by_cases hx : mnem.endsWith "x" = true
      · simp [hx, writePred, writeCond] at h
        obtain ⟨he, -⟩ := h
        subst he
        rfl
      · simp [hx, writePred] at h
        obtain ⟨he, -⟩ := h
        subst he
        rfl
    · rw [if_neg h1] at h
      by_cases h2 : mnem = "ne" ∨ mnem = "nex"
      · rw [if_pos h2] at h
        by_cases hx : mnem.endsWith "x" = true
        · simp [hx, writePred, writeCond] at h
          obtain ⟨he, -⟩ := h
          subst he
          rfl
        · simp [hx, writePred] at h
          obtain ⟨he, -⟩ := h
          subst he
          rfl
      · rw [if_neg h2] at h
        rcases lhs with _ | l
        · simp at h
        · simp only [Option.some_bind] at h
          by_cases h3 : mnem = "lt" ∨ mnem = "ltx"
          · rw [if_pos h3] at h
            by_cases hx : mnem.endsWith "x" = true
            · simp [hx, writePred, writeCond] at h
              obtain ⟨he, -⟩ := h
              subst he
              rfl
            · simp [hx, writePred] at h
              obtain ⟨he, -⟩ := h
              subst he
              rfl
          · rw [if_neg h3] at h
            by_cases h4 : mnem = "ltu" ∨ mnem = "ltux"
            · rw [if_pos h4] at h
              by_cases hx : mnem.endsWith "x" = true
              · simp [hx, writePred, writeCond] at h
                obtain ⟨he, -⟩ := h
                subst he
                rfl
              · simp [hx, writePred] at h
                obtain ⟨he, -⟩ := h
                subst he
                rfl
            · rw [if_neg h4] at h
              by_cases h5 : mnem = "ge" ∨ mnem = "gex"
              · rw [if_pos h5] at h
                by_cases hx : mnem.endsWith "x" = true
                · simp [hx, writePred, writeCond] at h
                  obtain ⟨he, -⟩ := h
                  subst he
                  rfl
                · simp [hx, writePred] at h
                  obtain ⟨he, -⟩ := h
                  subst he
                  rfl
              · rw [if_neg h5] at h
                by_cases h6 : mnem = "geu" ∨ mnem = "geux"
                · rw [if_pos h6] at h
                  by_cases hx : mnem.endsWith "x" = true
                  · simp [hx, writePred, writeCond] at h
                    obtain ⟨he, -⟩ := h
                    subst he
                    rfl
                  · simp [hx, writePred] at h
                    obtain ⟨he, -⟩ := h
                    subst he
                    rfl
                · rw [if_neg h6] at h
                  by_cases h7 : mnem = "any" ∨ mnem = "anyx"
                  · rw [if_pos h7] at h
                    by_cases hx : mnem.endsWith "x" = true
                    · simp [hx, writePred, writeCond] at h
                      obtain ⟨he, -⟩ := h
                      subst he
                      rfl
                    · simp [hx, writePred] at h
                      obtain ⟨he, -⟩ := h
                      subst he
                      rfl
                  · rw [if_neg h7] at h
                    simp at h
  · simp [h_cmp, hok] at h

theorem h_in_regs0 {env : Env} {s : SimState} {mnem : String}
    {ops : List (String × Int)} {s' : SimState} {evs : List Event}
    (h : h_in env s mnem ops = some (s', evs)) : s'.regs[0]? = s.regs[0]? := by
  by_cases hok : opsOk ops ["n", "a"] = true
  · rcases hn : List.lookup "n" ops with _ | n <;> simp [h_in, hok, hn] at h
    rcases hv : env.read_pin n with _ | v <;> simp [hv] at h
    by_cases hm : mnem = "in"
    · simp only [hm, if_true] at h
      rcases hw : writeReg s (List.lookup "a" ops) (mask1 v) with
          _ | ⟨s2, evs2⟩ <;>
        simp [hw] at h
      obtain ⟨h1, -⟩ := h
      subst h1
      exact writeReg_regs0 hw
    · by_cases hp : mnem.startsWith "inp" = true
      · by_cases hx : mnem.endsWith "x" = true
        · simp [hm, hp, hx, writePred, writeCond] at h
          obtain ⟨h1, -⟩ := h
          subst h1
          rfl
        · simp [hm, hp, hx, writePred] at h
          obtain ⟨h1, -⟩ := h
          subst h1
          rfl
      · simp [hm, hp] at h
  · simp [h_in, hok] at h

theorem h_bitwise_regs0 {s : SimState} {mnem : String}
    {ops : List (String × Int)} {s' : SimState} {evs : List Event}
    (h : h_bitwise s mnem ops = some (s', evs)) : s'.regs[0]? = s.regs[0]? := by
  by_cases hok : opsOk ops ["a", "b", "c", "imm"] = true
  · rcases hb : readRegOp s (List.lookup "b" ops) with _ | (_ | lhs) <;>
      rcases hc : regOrImm s (List.lookup "c" ops) (List.lookup "imm" ops) with
        _ | (_ | rhs) <;>
      simp [h_bitwise, hok, hb, hc] at h
    by_cases h1 : mnem = "and"
    · simp [h1] at h
      simpa using writeReg_regs0 h
    · by_cases h2 : mnem = "andn"
      · simp [h1, h2] at h
        simpa using writeReg_regs0 h
      · by_cases h3 : mnem = "or"
        · simp [h1, h2, h3] at h
          simpa using writeReg_regs0 h
        · by_cases h4 : mnem = "xor"
          · simp [h1, h2, h3, h4] at h
            simpa using writeReg_regs0 h
          · simp [h1, h2, h3, h4] at h
  · simp [h_bitwise, hok] at h

theorem h_shift_regs0 {s : SimState} {mnem : String}
    {ops : List (String × Int)} {s' : SimState} {evs : List Event}
    (h : h_shift s mnem ops = some (s', evs)) : s'.regs[0]? = s.regs[0]? := by
  by_cases hok : opsOk ops ["a", "b"] = true
  · rcases hb : readRegOp s (List.lookup "b" ops) with _ | (_ | v) <;>
      simp [h_shift, hok, hb] at h
    by_cases h1 : mnem = "srl"
    · simp [h1] at h
      simpa using writeReg_regs0 h
    · by_cases h2 : mnem = "sra"
      · simp [h1, h2] at h
        simpa using writeReg_regs0 h
      · by_cases h3 : mnem = "ror"
        · simp [h1, h2, h3] at h
          simpa using writeReg_regs0 h
        · by_cases h4 : mnem = "rol"
          · simp [h1, h2, h3, h4] at h
            simpa using writeReg_regs0 h
          · simp [h1, h2, h3, h4] at h
  · simp [h_shift, hok] at h

theorem h_st_regs0 {s : SimState} {mnem : String}
    {ops : List (String × Int)} {s' : SimState} {evs : List Event}
    (h : h_st s mnem ops = some (s', evs)) : s'.regs[0]? = s.regs[0]? := by
  by_cases hok : opsOk ops ["a", "b", "c", "imm"] = true
  · rcases hb : readRegOp s (List.lookup "b" ops) with _ | base <;>
      rcases ho : ldstOffset s mnem ops with _ | off <;>
      simp [h_st, hok, hb, ho] at h
    by_cases hpm : mnem.data.getLast?.getD ' ' = '+' ∨
        mnem.data.getLast?.getD ' ' = '-'
    · have hc1 : ¬(¬mnem.data.getLast?.getD ' ' = '+' ∧
          ¬mnem.data.getLast?.getD ' ' = '-') := by tauto
      by_cases hf : mnem.data.head?.getD ' ' = '+' ∨
          mnem.data.head?.getD ' ' = '-'
      · rcases base with _ | bv <;> rcases off with _ | ov <;>
          simp [hpm, hc1, hf] at h
        rcases hw1 : writeReg s (List.lookup "b" ops) (mask16 bv) with
            _ | ⟨s1, e1⟩ <;>
          simp [hw1] at h
        rcases hd : readRegOp s1 (List.lookup "a" ops) with _ | d <;>
          simp [hd] at h
        rcases d with _ | dv <;> simp at h
        rcases hw2 : writeReg s1 (List.lookup "b" ops) (mask16 (bv + ov)) with
            _ | ⟨s2, e2⟩ <;>
          simp [hw2] at h
        obtain ⟨h1, -⟩ := h
        subst h1
        exact (writeReg_regs0 hw2).trans (writeReg_regs0 hw1)
      · rcases base with _ | bv <;> rcases off with _ | ov <;>
          simp [hpm, hc1, hf] at h
        rcases hd : readRegOp s (List.lookup "a" ops) with _ | d <;>
          simp [hd] at h
        rcases d with _ | dv <;> simp at h
        rcases hw2 : writeReg s (List.lookup "b" ops) (mask16 (bv + ov)) with
            _ | ⟨s2, e2⟩ <;>
          simp [hw2] at h
        obtain ⟨h1, -⟩ := h
        subst h1
        exact writeReg_regs0 hw2
    · have hc1 : ¬mnem.data.getLast?.getD ' ' = '+' ∧
          ¬mnem.data.getLast?.getD ' ' = '-' := by tauto
      by_cases hf : mnem.data.head?.getD ' ' = '+' ∨
          mnem.data.head?.getD ' ' = '-'
      · rcases base with _ | bv <;> rcases off with _ | ov <;>
          simp [hpm, hc1, hf] at h
        rcases hw1 : writeReg s (List.lookup "b" ops) (mask16 (bv + ov)) with
            _ | ⟨s1, e1⟩ <;>
          simp [hw1] at h
        rcases hd : readRegOp s1 (List.lookup "a" ops) with _ | d <;>
          simp [hd] at h
        rcases d with _ | dv <;> simp at h
        obtain ⟨h1, -⟩ := h
        subst h1
        exact writeReg_regs0 hw1
      · rcases base with _ | bv <;> rcases off with _ | ov <;>
          simp [hpm, hc1, hf] at h
        rcases hd : readRegOp s (List.lookup "a" ops) with _ | d <;>
          simp [hd] at h
        rcases d with _ | dv <;> simp at h
        obtain ⟨h1, -⟩ := h
        subst h1
        rfl
  · simp [h_st, hok] at h

theorem h_ld_regs0 {env : Env} {s : SimState} {mnem : String}
    {ops : List (String × Int)} {s' : SimState} {evs : List Event}
    (h : h_ld env s mnem ops = some (s', evs)) : s'.regs[0]? = s.regs[0]? := by
  by_cases hok : opsOk ops ["a", "b", "c", "imm"] = true
  · rcases hb : readRegOp s (List.lookup "b" ops) with _ | base <;>
      rcases ho : ldstOffset s mnem ops with _ | off <;>
      simp [h_ld, hok, hb, ho] at h
    by_cases hpm : mnem.data.getLast?.getD ' ' = '+' ∨
        mnem.data.getLast?.getD ' ' = '-'
    · have hc1 : ¬(¬mnem.data.getLast?.getD ' ' = '+' ∧
          ¬mnem.data.getLast?.getD ' ' = '-') := by tauto
      by_cases hf : mnem.data.head?.getD ' ' = '+' ∨
          mnem.data.head?.getD ' ' = '-'
      · rcases base with _ | bv <;> rcases off with _ | ov <;>
          simp [hpm, hc1, hf] at h
        rcases hw1 : writeReg s (List.lookup "b" ops) (mask16 bv) with
            _ | ⟨s1, e1⟩ <;>
          simp [hw1] at h
        rcases hm : env.read_mem (mask16 bv) with _ | data <;>
          simp [hm] at h
        rcases hw2 : writeReg s1 (List.lookup "b" ops) (mask16 (bv + ov)) with
            _ | ⟨s2, e2⟩ <;>
          simp [hw2] at h
        rcases hw3 : writeReg s2 (List.lookup "a" ops) data with
            _ | ⟨s3, e3⟩ <;>
          simp [hw3] at h
        obtain ⟨h1, -⟩ := h
        subst h1
        exact ((writeReg_regs0 hw3).trans (writeReg_regs0 hw2)).trans
          (writeReg_regs0 hw1)
      · rcases base with _ | bv <;> rcases off with _ | ov <;>
          simp [hpm, hc1, hf] at h
        rcases hm : env.read_mem (mask16 bv) with _ | data <;>
          simp [hm] at h
        rcases hw2 : writeReg s (List.lookup "b" ops) (mask16 (bv + ov)) with
            _ | ⟨s2, e2⟩ <;>
          simp [hw2] at h
        rcases hw3 : writeReg s2 (List.lookup "a" ops) data with
            _ | ⟨s3, e3⟩ <;>
          simp [hw3] at h
        obtain ⟨h1, -⟩ := h
        subst h1
        exact (writeReg_regs0 hw3).trans (writeReg_regs0 hw2)
    · have hc1 : ¬mnem.data.getLast?.getD ' ' = '+' ∧
          ¬mnem.data.getLast?.getD ' ' = '-' := by tauto
      by_cases hf : mnem.data.head?.getD ' ' = '+' ∨
          mnem.data.head?.getD ' ' = '-'
      · rcases base with _ | bv <;> rcases off with _ | ov <;>
          simp [hpm, hc1, hf] at h
        rcases hw1 : writeReg s (List.lookup "b" ops) (mask16 (bv + ov)) with
            _ | ⟨s1, e1⟩ <;>
          simp [hw1] at h
        rcases hm : env.read_mem (mask16 (bv + ov)) with _ | data <;>
          simp [hm] at h
        rcases hw3 : writeReg s1 (List.lookup "a" ops) data with
            _ | ⟨s3, e3⟩ <;>
          simp [hw3] at h
        obtain ⟨h1, -⟩ := h
        subst h1
        exact (writeReg_regs0 hw3).trans (writeReg_regs0 hw1)
      · rcases base with _ | bv <;> rcases off with _ | ov <;>
          simp [hpm, hc1, hf] at h
        rcases hm : env.read_mem (mask16 (bv + ov)) with _ | data <;>
          simp [hm] at h
        rcases hw3 : writeReg s (List.lookup "a" ops) data with
            _ | ⟨s3, e3⟩ <;>
          simp [hw3] at h
        obtain ⟨h1, -⟩ := h
        subst h1
        exact writeReg_regs0 hw3
  · simp [h_ld, hok] at h

theorem ldstmGo_regs0 {env : Env} {mnem : String} :
    ∀ (fuel : Nat) (s : SimState) (r sEnd addr : Int) (s' : SimState)
      (evs : List Event),
      ldstmGo env mnem s r sEnd addr fuel = some (s', evs) →
      s'.regs[0]? = s.regs[0]? := by
  intro fuel
  induction fuel with
  | zero =>
    intro s r sEnd addr s' evs h
    simp [ldstmGo] at h
  | succ fuel ih =>
    intro s r sEnd addr s' evs h
    by_cases hst : List.IsInfix ['s', 't'] mnem.toList
    · simp only [ldstmGo] at h
      rw [if_pos hst] at h
      rcases hd : readRegOp s (some r) with _ | d <;> simp [hd] at h
      rcases d with _ | dv <;> simp at h
      by_cases hr : r = sEnd
      · rw [if_pos hr] at h
        simp at h
        obtain ⟨h1, -⟩ := h
        subst h1
        rfl
      · rw [if_neg hr] at h
        rcases hrec : ldstmGo env mnem s ((r + 1).emod 16) sEnd
            (mask16 (addr + 1)) fuel with _ | ⟨s2, evs2⟩ <;>
          simp [hrec] at h
        obtain ⟨h1, -⟩ := h
        subst h1
        exact ih s ((r + 1).emod 16) sEnd (mask16 (addr + 1)) s2 evs2 hrec
    · simp only [ldstmGo] at h
      rw [if_neg hst] at h
      rcases hm : env.read_mem addr with _ | data <;> simp [hm] at h
      rcases hw : writeReg s (some r) data with _ | ⟨s1, e1⟩ <;>
        simp [hw] at h
      by_cases hr : r = sEnd
      · rw [if_pos hr] at h
        simp at h
        obtain ⟨h1, -⟩ := h
        subst h1
        exact writeReg_regs0 hw
      · rw [if_neg hr] at h
        rcases hrec : ldstmGo env mnem s1 ((r + 1).emod 16) sEnd
            (mask16 (addr + 1)) fuel with _ | ⟨s2, evs2⟩ <;>
          simp [hrec] at h
        obtain ⟨h1, -⟩ := h
        subst h1
        exact (ih s1 ((r + 1).emod 16) sEnd (mask16 (addr + 1)) s2 evs2
          hrec).trans (writeReg_regs0 hw)

theorem h_ldstm_regs0 {env : Env} {s : SimState} {mnem : String}
    {ops : List (String × Int)} {s' : SimState} {evs : List Event}
    (h : h_ldstm env s mnem ops = some (s', evs)) :
    s'.regs[0]? = s.regs[0]? := by
  by_cases hok : opsOk ops ["r", "s", "b"] = true
  · rcases hr : List.lookup "r" ops with _ | r <;>
      rcases hsE : List.lookup "s" ops with _ | sEnd <;>
      rcases hbv : List.lookup "b" ops with _ | b <;>
      simp [h_ldstm, hok, hr, hsE, hbv] at h
    rcases ha : readReg s b with _ | a <;> simp [ha] at h
    rcases a with _ | addr <;> simp at h
    exact ldstmGo_regs0 32 s r sEnd addr s' evs h
  · simp [h_ldstm, hok] at h

theorem check_run_regs0 (s : SimState) :
    ((check_run s).2).regs[0]? = s.regs[0]? := by
  unfold check_run
  split <;> rfl

theorem dispatch_regs0 {env : Env} {s : SimState} {mnem : String}
    {ops : List (String × Int)} {s' : SimState} {evs : List Event}
    {rd : Option Int}
    (h : dispatch env s mnem ops = some (s', evs, rd)) :
    s'.regs[0]? = s.regs[0]? := by
  rcases hf : List.lookup mnem funcs with _ | k
  · simp [dispatch, hf] at h
  · cases k
    case jmp =>
      simp [dispatch, hf] at h
      exact h_jmp_regs0 h
    case add_sub =>
      rcases hx : h_add_sub s mnem ops with _ | ⟨s2, evs2⟩ <;>
        simp [dispatch, hf, hx] at h
      obtain ⟨h1, -⟩ := h
      subst h1
      exact h_add_sub_regs0 hx
    case bitwise =>
      rcases hx : h_bitwise s mnem ops with _ | ⟨s2, evs2⟩ <;>
        simp [dispatch, hf, hx] at h
      obtain ⟨h1, -⟩ := h
      subst h1
      exact h_bitwise_regs0 hx
    case ld =>
      rcases hx : h_ld env s mnem ops with _ | ⟨s2, evs2⟩ <;>
        simp [dispatch, hf, hx] at h
      obtain ⟨h1, -⟩ := h
      subst h1
      exact h_ld_regs0 hx
    case st =>
      rcases hx : h_st s mnem ops with _ | ⟨s2, evs2⟩ <;>
        simp [dispatch, hf, hx] at h
      obtain ⟨h1, -⟩ := h
      subst h1
      exact h_st_regs0 hx
    case ldstm =>
      rcases hx : h_ldstm env s mnem ops with _ | ⟨s2, evs2⟩ <;>
        simp [dispatch, hf, hx] at h
      obtain ⟨h1, -⟩ := h
      subst h1
      exact h_ldstm_regs0 hx
    case inc_dec =>
      rcases hx : h_inc_dec s mnem ops with _ | ⟨s2, evs2⟩ <;>
        simp [dispatch, hf, hx] at h
      obtain ⟨h1, -⟩ := h
      subst h1
      exact h_inc_dec_regs0 hx
    case shift =>
      rcases hx : h_shift s mnem ops with _ | ⟨s2, evs2⟩ <;>
        simp [dispatch, hf, hx] at h
      obtain ⟨h1, -⟩ := h
      subst h1
      exact h_shift_regs0 hx
    case hnot =>
      rcases hx : h_not s ops with _ | ⟨s2, evs2⟩ <;>
        simp [dispatch, hf, hx] at h
      obtain ⟨h1, -⟩ := h
      subst h1
      exact h_not_regs0 hx
    case urx =>
      rcases hx : h_urx env s ops with _ | ⟨s2, evs2⟩ <;>
        simp [dispatch, hf, hx] at h
      obtain ⟨h1, -⟩ := h
      subst h1
      exact h_urx_regs0 hx
    case getp =>
      rcases hx : h_getp s ops with _ | ⟨s2, evs2⟩ <;>
        simp [dispatch, hf, hx] at h
      obtain ⟨h1, -⟩ := h
      subst h1
      exact h_getp_regs0 hx
    case cmp =>
      rcases hx : h_cmp s mnem ops with _ | ⟨s2, evs2⟩ <;>
        simp [dispatch, hf, hx] at h
      obtain ⟨h1, -⟩ := h
      subst h1
      exact h_cmp_regs0 hx
    case hin =>
      rcases hx : h_in env s mnem ops with _ | ⟨s2, evs2⟩ <;>
        simp [dispatch, hf, hx] at h
      obtain ⟨h1, -⟩ := h
      subst h1
      exact h_in_regs0 hx
    case addpc =>
      rcases hx : h_addpc s ops with _ | ⟨s2, evs2⟩ <;>
        simp [dispatch, hf, hx] at h
      obtain ⟨h1, -⟩ := h
      subst h1
      exact h_addpc_regs0 hx
    case out =>
      rcases hx : h_out s mnem ops with _ | ⟨s2, evs2⟩ <;>
        simp [dispatch, hf, hx] at h
      obtain ⟨h1, -⟩ := h
      subst h1
      exact h_out_regs0 hx
    case utx =>
      rcases hx : h_utx s ops with _ | ⟨s2, evs2⟩ <;>
        simp [dispatch, hf, hx] at h
      obtain ⟨h1, -⟩ := h
      subst h1
      exact h_utx_regs0 hx
    case carry =>
      rcases hx : h_carry s ops with _ | ⟨s2, evs2⟩ <;>
        simp [dispatch, hf, hx] at h
      obtain ⟨h1, -⟩ := h
      subst h1
      exact h_carry_regs0 hx
    case putp =>
      rcases hx : h_putp s ops with _ | ⟨s2, evs2⟩ <;>
        simp [dispatch, hf, hx] at h
      obtain ⟨h1, -⟩ := h
      subst h1
      exact h_putp_regs0 hx
    case andor_p =>
      rcases hx : h_andor_p s mnem ops with _ | ⟨s2, evs2⟩ <;>
        simp [dispatch, hf, hx] at h
      obtain ⟨h1, -⟩ := h
      subst h1
      exact h_andor_p_regs0 hx
    case cex =>
      rcases hx : h_cex s ops with _ | ⟨s2, evs2⟩ <;>
        simp [dispatch, hf, hx] at h
      obtain ⟨h1, -⟩ := h
      subst h1
      exact h_cex_regs0 hx

theorem tick_regs0 {env : Env} {s0 : SimState} {instr : Instruction}
    {s' : SimState} {evs : List Event}
    (h : tick env s0 instr = some (s', evs)) : s'.regs[0]? = s0.regs[0]? := by
  have h4 : ((check_run
      {s0 with pc := s0.pc + if instr.hasImm = true then 1 else 0}).2).regs[0]? =
      s0.regs[0]? := by
    simpa using check_run_regs0
      {s0 with pc := s0.pc + if instr.hasImm = true then 1 else 0}
  unfold tick at h
  simp only [] at h
  by_cases hrun : (check_run
      {s0 with pc := s0.pc + if instr.hasImm = true then 1 else 0}).1 = true
  · rw [if_pos hrun] at h
    by_cases hcex : instr.mnem = "cex"
    · rw [if_pos hcex] at h
      rcases hcm : instr.cex_mask with _ | v <;> rw [hcm] at h
      · simp at h
      · simp only [] at h
        rcases hD : dispatch env
            ((check_run
              {s0 with pc := s0.pc + if instr.hasImm = true then 1 else 0}).2)
            instr.mnem (setOpAdd instr.ops "m" v) with _ | ⟨s3, evs3, rd⟩ <;>
          simp [hD] at h
        obtain ⟨h1, -⟩ := h
        subst h1
        simpa using (dispatch_regs0 hD).trans h4
    · rw [if_neg hcex] at h
      try simp only [] at h
      rcases hD : dispatch env
          ((check_run
            {s0 with pc := s0.pc + if instr.hasImm = true then 1 else 0}).2)
          instr.mnem instr.ops with _ | ⟨s3, evs3, rd⟩ <;>
        simp [hD] at h
      obtain ⟨h1, -⟩ := h
      subst h1
      simpa using (dispatch_regs0 hD).trans h4
  · rw [if_neg hrun] at h
    simp at h
    obtain ⟨h1, -⟩ := h
    subst h1
    simpa using h4

theorem applyEvent_sim {m : Machine} {e : Event} {m' : Machine}
    (h : applyEvent m e = some m') : m'.sim = m.sim := by
  cases e
  case write_mem a v =>
    simp only [applyEvent] at h
    split at h
    · simp at h
    · simp at h
      subst h
      rfl
  case write_uart v =>
    simp [applyEvent] at h
    subst h
    rfl
  case read_uart =>
    simp [applyEvent] at h
    subst h
    rfl
  all_goals
    simp [applyEvent] at h
  case write_reg r v =>
    subst h
    rfl
  case write_pred b =>
    subst h
    rfl
  case write_cond v =>
    subst h
    rfl
  case write_pin p v =>
    subst h
    rfl
  case read_mem a =>
    subst h
    rfl
  case read_pin p =>
    subst h
    rfl

theorem foldlM_applyEvent_sim :
    ∀ (evs : List Event) (m m' : Machine),
      List.foldlM applyEvent m evs = some m' → m'.sim = m.sim := by
  intro evs
  induction evs with
  | nil =>
    intro m m' h
    simp [List.foldlM] at h
    subst h
    rfl
  | cons e rest ih =>
    intro m m' h
    rcases ha : applyEvent m e with _ | m2 <;>
      simp [List.foldlM, ha] at h
    exact (ih m2 m' h).trans (applyEvent_sim ha)

theorem bind_tick_foldlM {env : Env} {m : Machine} {instr : Instruction}
    {m' : Machine}
    (h : (do
        let (s, evs) ← tick env m.sim instr
        evs.foldlM applyEvent {m with sim := s} : Option Machine) = some m') :
    m'.sim.regs[0]? = m.sim.regs[0]? := by
  rcases ht : tick env m.sim instr with _ | ⟨s, tevs⟩ <;> rw [ht] at h <;>
    simp only [] at h
  · simp at h
  · have hs := foldlM_applyEvent_sim tevs {m with sim := s} m' h
    rw [hs]
    simpa using tick_regs0 ht

theorem step_regs0 {m m' : Machine} (h : step m = some m') :
    m'.sim.regs[0]? = m.sim.regs[0]? := by
  unfold step at h
  rcases hf : fetchInstr m.mem m.sim.pc with _ | instr <;> rw [hf] at h <;>
    simp only [] at h
  · simp at h
  · exact bind_tick_foldlM h

theorem runN_regs0 :
    ∀ (n : Nat) (m m' : Machine), runN n m = some m' →
      m'.sim.regs[0]? = m.sim.regs[0]? := by
  intro n
  induction n with
  | zero =>
    intro m m' h
    simp [runN] at h
    subst h
    rfl
  | succ k ih =>
    intro m m' h
    simp only [runN] at h
    rcases hs : step m with _ | m2 <;> rw [hs] at h <;> simp at h
    exact (ih m2 m' h).trans (step_regs0 hs)

/-- C3: starting from simulator reset, however many ticks of whatever
program run successfully, register 0 still holds 0: every register-write
path goes through _write_reg, which discards writes to the zero
register. -/
theorem C3_zero_register (n : Nat) (mem : Int → Option Nat) (rx : List Int)
    (pins : Int → Option Int) (m' : Machine)
    (h : runN n (machine0 mem rx pins) = some m') :
    m'.sim.regs[0]? = some (some 0) := by
  rw [runN_regs0 n (machine0 mem rx pins) m' h]
  rfl

theorem C3_witness :
    runN 1 (machine0
        (fun a => if a = 0 then some 15 else if a = 1 then some 5 else none)
        [] (fun _ => none)) =
      some { mem := fun a =>
               if a = 0 then some 15 else if a = 1 then some 5 else none,
             uart_rx := [], uart_tx := [], pins := fun _ => none,
             sim := { pc := 2, regs := some 0 :: List.replicate 15 none,
                      pred := false, cond := 0, num_count := 0,
                      max_count := 0, count_op := none, cin := 0,
                      ticks := 1, out_pins := List.replicate 4 none } } ∧
    ({ mem := fun a =>
         if a = 0 then some 15 else if a = 1 then some 5 else none,
       uart_rx := [], uart_tx := [], pins := fun _ => none,
       sim := { pc := 2, regs := some 0 :: List.replicate 15 none,
                pred := false, cond := 0, num_count := 0,
                max_count := 0, count_op := none, cin := 0,
                ticks := 1, out_pins := List.replicate 4 none } } :
      Machine).sim.regs[0]? = some (some 0) := by
  constructor
  · rfl
  · exact C3_zero_register 1
      (fun a => if a = 0 then some 15 else if a = 1 then some 5 else none)
      [] (fun _ => none) _ (by rfl)

end Idli
